import Mathlib

/-!
# unfirewall: configuration resolution and rule compilation

A shallow embedding of `internal/unfirewall/config/json.go` together with the
declarations of `internal/unfirewall/unfirewall.go`,
`sources/cloudflare/source.go` and `firewalls/hetzner/firewall.go` that it uses.

Modelling conventions.

* A Go `map[K]V` is an association list `GoMap K V` with at most one entry per
  key; `GoMap.get` is the comma-ok lookup `m[k]` and `GoMap.set` is the
  assignment `m[k] = v`.
* `for k, v := range m` over a Go map visits the entries in an unspecified
  order.  The two registry builders therefore take the entries of the
  configuration map as a list, in the order in which the loop visits them.
* A Go slice is `Option (List _)`, where `none` is the nil slice.
* A Go return pair `(value, err)` is `Outcome.ret value err`, where `none` stands
  for `nil`; a run-time panic is `Outcome.panic`.
* `uint16` values are natural numbers; the code never does arithmetic on them.
* `strings.ToLower` is the Go library function: `unicode.ToLower`, the simple
  lower-case mapping of Unicode, on every code point of the string.
-/

namespace Unfirewall

/-! ## Go runtime pieces -/

/-- Association-list model of a Go map. -/
abbrev GoMap (K V : Type) := List (K × V)

namespace GoMap

variable {K V : Type} [DecidableEq K]

/-- The comma-ok lookup `v, ok := m[k]`; `none` is `ok = false`. -/
def get : GoMap K V → K → Option V
  | [], _ => none
  | (k', v) :: m, k => if k' = k then some v else get m k

/-- The assignment `m[k] = v`: overwrite the entry of `k` or add a new one. -/
def set : GoMap K V → K → V → GoMap K V
  | [], k, v => [(k, v)]
  | (k', v') :: m, k, v => if k' = k then (k, v) :: m else (k', v') :: set m k v

/-- The keys of the map. -/
def keys (m : GoMap K V) : List K := m.map Prod.fst

/-- The builtin `len(m)`. -/
def len (m : GoMap K V) : Nat := m.length

end GoMap

/-- What a Go function of result type `(T, error)` does: it returns a pair
(`none` is `nil`), or it panics. -/
inductive Outcome (α : Type) where
  | ret (value : Option α) (err : Option String)
  | panic (msg : String)
  deriving DecidableEq, Repr

/-- The `error` of a returned pair; `none` is `nil`. -/
def Outcome.error {α : Type} : Outcome α → Option String
  | .ret _ err => err
  | .panic _ => none

/-- The value decoded by `encoding/json` into an `interface{}`. -/
inductive JsonValue where
  | null
  | bool (b : Bool)
  | number (q : ℚ)
  | string (s : String)
  | array (xs : List JsonValue)
  | object (kvs : List (String × JsonValue))

/-- The name of the dynamic type of a decoded value, as the runtime prints it. -/
def JsonValue.dynamicType : JsonValue → String
  | .null => "nil"
  | .bool _ => "bool"
  | .number _ => "float64"
  | .string _ => "string"
  | .array _ => "[]interface {}"
  | .object _ => "map[string]interface {}"

namespace unicode

/-- A run of upper-case code points and their lower-case letters: the code
points `Lo`, `Lo + Stride`, `Lo + 2 * Stride`, ... up to `Hi` have as lower-case
letters the code points that lie as far behind `To` as they lie behind `Lo`. -/
structure CaseRange where
  Lo : Nat
  Hi : Nat
  Stride : Nat
  To : Nat

/-- The lower-case column of the table `unicode.CaseRanges` of the Go library
above U+007F: the simple lower-case mapping of the Unicode Character Database
(version 14.0.0), every code point that is not listed being its own lower-case
letter. -/
def lowerCaseRanges : List CaseRange :=
  [CaseRange.mk 0x00C0 0x00D6 1 0x00E0, CaseRange.mk 0x00D8 0x00DE 1 0x00F8,
   CaseRange.mk 0x0100 0x012E 2 0x0101, CaseRange.mk 0x0130 0x0130 1 0x0069,
   CaseRange.mk 0x0132 0x0136 2 0x0133, CaseRange.mk 0x0139 0x0147 2 0x013A,
   CaseRange.mk 0x014A 0x0176 2 0x014B, CaseRange.mk 0x0178 0x0178 1 0x00FF,
   CaseRange.mk 0x0179 0x017D 2 0x017A, CaseRange.mk 0x0181 0x0181 1 0x0253,
   CaseRange.mk 0x0182 0x0184 2 0x0183, CaseRange.mk 0x0186 0x0186 1 0x0254,
   CaseRange.mk 0x0187 0x0187 1 0x0188, CaseRange.mk 0x0189 0x018A 1 0x0256,
   CaseRange.mk 0x018B 0x018B 1 0x018C, CaseRange.mk 0x018E 0x018E 1 0x01DD,
   CaseRange.mk 0x018F 0x018F 1 0x0259, CaseRange.mk 0x0190 0x0190 1 0x025B,
   CaseRange.mk 0x0191 0x0191 1 0x0192, CaseRange.mk 0x0193 0x0193 1 0x0260,
   CaseRange.mk 0x0194 0x0194 1 0x0263, CaseRange.mk 0x0196 0x0196 1 0x0269,
   CaseRange.mk 0x0197 0x0197 1 0x0268, CaseRange.mk 0x0198 0x0198 1 0x0199,
   CaseRange.mk 0x019C 0x019C 1 0x026F, CaseRange.mk 0x019D 0x019D 1 0x0272,
   CaseRange.mk 0x019F 0x019F 1 0x0275, CaseRange.mk 0x01A0 0x01A4 2 0x01A1,
   CaseRange.mk 0x01A6 0x01A6 1 0x0280, CaseRange.mk 0x01A7 0x01A7 1 0x01A8,
   CaseRange.mk 0x01A9 0x01A9 1 0x0283, CaseRange.mk 0x01AC 0x01AC 1 0x01AD,
   CaseRange.mk 0x01AE 0x01AE 1 0x0288, CaseRange.mk 0x01AF 0x01AF 1 0x01B0,
   CaseRange.mk 0x01B1 0x01B2 1 0x028A, CaseRange.mk 0x01B3 0x01B5 2 0x01B4,
   CaseRange.mk 0x01B7 0x01B7 1 0x0292, CaseRange.mk 0x01B8 0x01B8 1 0x01B9,
   CaseRange.mk 0x01BC 0x01BC 1 0x01BD, CaseRange.mk 0x01C4 0x01C4 1 0x01C6,
   CaseRange.mk 0x01C5 0x01C5 1 0x01C6, CaseRange.mk 0x01C7 0x01C7 1 0x01C9,
   CaseRange.mk 0x01C8 0x01C8 1 0x01C9, CaseRange.mk 0x01CA 0x01CA 1 0x01CC,
   CaseRange.mk 0x01CB 0x01DB 2 0x01CC, CaseRange.mk 0x01DE 0x01EE 2 0x01DF,
   CaseRange.mk 0x01F1 0x01F1 1 0x01F3, CaseRange.mk 0x01F2 0x01F4 2 0x01F3,
   CaseRange.mk 0x01F6 0x01F6 1 0x0195, CaseRange.mk 0x01F7 0x01F7 1 0x01BF,
   CaseRange.mk 0x01F8 0x021E 2 0x01F9, CaseRange.mk 0x0220 0x0220 1 0x019E,
   CaseRange.mk 0x0222 0x0232 2 0x0223, CaseRange.mk 0x023A 0x023A 1 0x2C65,
   CaseRange.mk 0x023B 0x023B 1 0x023C, CaseRange.mk 0x023D 0x023D 1 0x019A,
   CaseRange.mk 0x023E 0x023E 1 0x2C66, CaseRange.mk 0x0241 0x0241 1 0x0242,
   CaseRange.mk 0x0243 0x0243 1 0x0180, CaseRange.mk 0x0244 0x0244 1 0x0289,
   CaseRange.mk 0x0245 0x0245 1 0x028C, CaseRange.mk 0x0246 0x024E 2 0x0247,
   CaseRange.mk 0x0370 0x0372 2 0x0371, CaseRange.mk 0x0376 0x0376 1 0x0377,
   CaseRange.mk 0x037F 0x037F 1 0x03F3, CaseRange.mk 0x0386 0x0386 1 0x03AC,
   CaseRange.mk 0x0388 0x038A 1 0x03AD, CaseRange.mk 0x038C 0x038C 1 0x03CC,
   CaseRange.mk 0x038E 0x038F 1 0x03CD, CaseRange.mk 0x0391 0x03A1 1 0x03B1,
   CaseRange.mk 0x03A3 0x03AB 1 0x03C3, CaseRange.mk 0x03CF 0x03CF 1 0x03D7,
   CaseRange.mk 0x03D8 0x03EE 2 0x03D9, CaseRange.mk 0x03F4 0x03F4 1 0x03B8,
   CaseRange.mk 0x03F7 0x03F7 1 0x03F8, CaseRange.mk 0x03F9 0x03F9 1 0x03F2,
   CaseRange.mk 0x03FA 0x03FA 1 0x03FB, CaseRange.mk 0x03FD 0x03FF 1 0x037B,
   CaseRange.mk 0x0400 0x040F 1 0x0450, CaseRange.mk 0x0410 0x042F 1 0x0430,
   CaseRange.mk 0x0460 0x0480 2 0x0461, CaseRange.mk 0x048A 0x04BE 2 0x048B,
   CaseRange.mk 0x04C0 0x04C0 1 0x04CF, CaseRange.mk 0x04C1 0x04CD 2 0x04C2,
   CaseRange.mk 0x04D0 0x052E 2 0x04D1, CaseRange.mk 0x0531 0x0556 1 0x0561,
   CaseRange.mk 0x10A0 0x10C5 1 0x2D00, CaseRange.mk 0x10C7 0x10C7 1 0x2D27,
   CaseRange.mk 0x10CD 0x10CD 1 0x2D2D, CaseRange.mk 0x13A0 0x13EF 1 0xAB70,
   CaseRange.mk 0x13F0 0x13F5 1 0x13F8, CaseRange.mk 0x1C90 0x1CBA 1 0x10D0,
   CaseRange.mk 0x1CBD 0x1CBF 1 0x10FD, CaseRange.mk 0x1E00 0x1E94 2 0x1E01,
   CaseRange.mk 0x1E9E 0x1E9E 1 0x00DF, CaseRange.mk 0x1EA0 0x1EFE 2 0x1EA1,
   CaseRange.mk 0x1F08 0x1F0F 1 0x1F00, CaseRange.mk 0x1F18 0x1F1D 1 0x1F10,
   CaseRange.mk 0x1F28 0x1F2F 1 0x1F20, CaseRange.mk 0x1F38 0x1F3F 1 0x1F30,
   CaseRange.mk 0x1F48 0x1F4D 1 0x1F40, CaseRange.mk 0x1F59 0x1F5F 2 0x1F51,
   CaseRange.mk 0x1F68 0x1F6F 1 0x1F60, CaseRange.mk 0x1F88 0x1F8F 1 0x1F80,
   CaseRange.mk 0x1F98 0x1F9F 1 0x1F90, CaseRange.mk 0x1FA8 0x1FAF 1 0x1FA0,
   CaseRange.mk 0x1FB8 0x1FB9 1 0x1FB0, CaseRange.mk 0x1FBA 0x1FBB 1 0x1F70,
   CaseRange.mk 0x1FBC 0x1FBC 1 0x1FB3, CaseRange.mk 0x1FC8 0x1FCB 1 0x1F72,
   CaseRange.mk 0x1FCC 0x1FCC 1 0x1FC3, CaseRange.mk 0x1FD8 0x1FD9 1 0x1FD0,
   CaseRange.mk 0x1FDA 0x1FDB 1 0x1F76, CaseRange.mk 0x1FE8 0x1FE9 1 0x1FE0,
   CaseRange.mk 0x1FEA 0x1FEB 1 0x1F7A, CaseRange.mk 0x1FEC 0x1FEC 1 0x1FE5,
   CaseRange.mk 0x1FF8 0x1FF9 1 0x1F78, CaseRange.mk 0x1FFA 0x1FFB 1 0x1F7C,
   CaseRange.mk 0x1FFC 0x1FFC 1 0x1FF3, CaseRange.mk 0x2126 0x2126 1 0x03C9,
   CaseRange.mk 0x212A 0x212A 1 0x006B, CaseRange.mk 0x212B 0x212B 1 0x00E5,
   CaseRange.mk 0x2132 0x2132 1 0x214E, CaseRange.mk 0x2160 0x216F 1 0x2170,
   CaseRange.mk 0x2183 0x2183 1 0x2184, CaseRange.mk 0x24B6 0x24CF 1 0x24D0,
   CaseRange.mk 0x2C00 0x2C2F 1 0x2C30, CaseRange.mk 0x2C60 0x2C60 1 0x2C61,
   CaseRange.mk 0x2C62 0x2C62 1 0x026B, CaseRange.mk 0x2C63 0x2C63 1 0x1D7D,
   CaseRange.mk 0x2C64 0x2C64 1 0x027D, CaseRange.mk 0x2C67 0x2C6B 2 0x2C68,
   CaseRange.mk 0x2C6D 0x2C6D 1 0x0251, CaseRange.mk 0x2C6E 0x2C6E 1 0x0271,
   CaseRange.mk 0x2C6F 0x2C6F 1 0x0250, CaseRange.mk 0x2C70 0x2C70 1 0x0252,
   CaseRange.mk 0x2C72 0x2C72 1 0x2C73, CaseRange.mk 0x2C75 0x2C75 1 0x2C76,
   CaseRange.mk 0x2C7E 0x2C7F 1 0x023F, CaseRange.mk 0x2C80 0x2CE2 2 0x2C81,
   CaseRange.mk 0x2CEB 0x2CED 2 0x2CEC, CaseRange.mk 0x2CF2 0x2CF2 1 0x2CF3,
   CaseRange.mk 0xA640 0xA66C 2 0xA641, CaseRange.mk 0xA680 0xA69A 2 0xA681,
   CaseRange.mk 0xA722 0xA72E 2 0xA723, CaseRange.mk 0xA732 0xA76E 2 0xA733,
   CaseRange.mk 0xA779 0xA77B 2 0xA77A, CaseRange.mk 0xA77D 0xA77D 1 0x1D79,
   CaseRange.mk 0xA77E 0xA786 2 0xA77F, CaseRange.mk 0xA78B 0xA78B 1 0xA78C,
   CaseRange.mk 0xA78D 0xA78D 1 0x0265, CaseRange.mk 0xA790 0xA792 2 0xA791,
   CaseRange.mk 0xA796 0xA7A8 2 0xA797, CaseRange.mk 0xA7AA 0xA7AA 1 0x0266,
   CaseRange.mk 0xA7AB 0xA7AB 1 0x025C, CaseRange.mk 0xA7AC 0xA7AC 1 0x0261,
   CaseRange.mk 0xA7AD 0xA7AD 1 0x026C, CaseRange.mk 0xA7AE 0xA7AE 1 0x026A,
   CaseRange.mk 0xA7B0 0xA7B0 1 0x029E, CaseRange.mk 0xA7B1 0xA7B1 1 0x0287,
   CaseRange.mk 0xA7B2 0xA7B2 1 0x029D, CaseRange.mk 0xA7B3 0xA7B3 1 0xAB53,
   CaseRange.mk 0xA7B4 0xA7C2 2 0xA7B5, CaseRange.mk 0xA7C4 0xA7C4 1 0xA794,
   CaseRange.mk 0xA7C5 0xA7C5 1 0x0282, CaseRange.mk 0xA7C6 0xA7C6 1 0x1D8E,
   CaseRange.mk 0xA7C7 0xA7C9 2 0xA7C8, CaseRange.mk 0xA7D0 0xA7D0 1 0xA7D1,
   CaseRange.mk 0xA7D6 0xA7D8 2 0xA7D7, CaseRange.mk 0xA7F5 0xA7F5 1 0xA7F6,
   CaseRange.mk 0xFF21 0xFF3A 1 0xFF41, CaseRange.mk 0x10400 0x10427 1 0x10428,
   CaseRange.mk 0x104B0 0x104D3 1 0x104D8, CaseRange.mk 0x10570 0x1057A 1 0x10597,
   CaseRange.mk 0x1057C 0x1058A 1 0x105A3, CaseRange.mk 0x1058C 0x10592 1 0x105B3,
   CaseRange.mk 0x10594 0x10595 1 0x105BB, CaseRange.mk 0x10C80 0x10CB2 1 0x10CC0,
   CaseRange.mk 0x118A0 0x118BF 1 0x118C0, CaseRange.mk 0x16E40 0x16E5F 1 0x16E60,
   CaseRange.mk 0x1E900 0x1E921 1 0x1E922]

/-- Whether the code point `r` is one of the code points of the run `cr`. -/
def inCaseRange (cr : CaseRange) (r : Nat) : Bool :=
  decide (cr.Lo ≤ r) && decide (r ≤ cr.Hi) && decide ((r - cr.Lo) % cr.Stride = 0)

/-- Go: `unicode.ToLower`: the letters `A` to `Z` by the offset of `a` from `A`,
the other code points up to U+007F unchanged, the code points above by the
table. -/
def ToLower (r : Char) : Char :=
  if r.toNat ≤ 0x7F then
    if 0x41 ≤ r.toNat ∧ r.toNat ≤ 0x5A then Char.ofNat (r.toNat + 0x20) else r
  else
    match lowerCaseRanges.find? (fun cr => inCaseRange cr r.toNat) with
    | some cr => Char.ofNat (cr.To + (r.toNat - cr.Lo))
    | none => r

end unicode

namespace strings

/-- Go: `strings.ToLower`: `unicode.ToLower` applied to every code point of the
string. -/
def ToLower (s : String) : String := ⟨s.data.map unicode.ToLower⟩

end strings

/-- The verb `%v` of `fmt` applied to a non-negative `int`. -/
def fmtInt (i : Nat) : String := toString i

/-! ## `unfirewall.go` -/

/-- Go: `type SourceType string`. -/
abbrev SourceType := String

def SourceCloudflare : SourceType := "cloudflare"

/-- Go: `type Action string`. -/
abbrev Action := String

def ActionAllow : Action := "allow"

def ActionDeny : Action := "deny"

/-- Go: `type FirewallType string`. -/
abbrev FirewallType := String

def FirewallUfw : FirewallType := "ufw"

def FirewallHetzner : FirewallType := "hetzner"

/-- Go: `type Rule struct`; `σ` is the type of the values of interface `Source`. -/
structure Rule (σ : Type) where
  Action : Action
  Source : σ
  Port : Nat
  Ports : Option (List Nat)
  PortRange : Nat × Nat
  Interfaces : Option (List String)
  deriving DecidableEq, Repr

/-! ## `sources/cloudflare/source.go`, `firewalls/hetzner/firewall.go` -/

/-- Go: `type CloudflareSource struct{}`. -/
structure CloudflareSource where
  deriving DecidableEq, Repr

def CloudflareSource.Type (_ : CloudflareSource) : SourceType := SourceCloudflare

/-- Go: `cloudflare.New`, which returns `CloudflareSource{}, nil`. -/
def cloudflare.New : CloudflareSource × Option String := (CloudflareSource.mk, none)

/-- Go: `type HetznerFirewall struct{}`. -/
structure HetznerFirewall where
  deriving DecidableEq, Repr

def HetznerFirewall.Type (_ : HetznerFirewall) : FirewallType := FirewallHetzner

/-- Go: `hetzner.New`, which returns `HetznerFirewall{}, nil`. -/
def hetzner.New : HetznerFirewall × Option String := (HetznerFirewall.mk, none)

/-- The values of interface `unfirewall.Source` that the repository can build. -/
inductive Source where
  | cloudflare (c : CloudflareSource)
  deriving DecidableEq, Repr

def Source.Type : Source → SourceType
  | .cloudflare c => c.Type

/-- The values of interface `unfirewall.Firewall` that the repository can build. -/
inductive Firewall where
  | hetzner (h : HetznerFirewall)
  deriving DecidableEq, Repr

def Firewall.Type : Firewall → FirewallType
  | .hetzner h => h.Type

/-! ## `config/json.go` -/

/-- Go: `map[string]interface{}`, one entry of `sources` or `destinations`. -/
abbrev PropertyBag := GoMap String JsonValue

/-- Go: `type jsonConfiguration struct`.  Each field lists the entries of the
decoded map in the order in which `range` visits them. -/
structure jsonConfiguration where
  Sources : List (String × PropertyBag)
  Destinations : List (String × PropertyBag)

/-- Go: `type jsonRule struct`. -/
structure jsonRule where
  Action : String
  Source : String
  Destination : String
  Port : Nat
  Ports : Option (List Nat)
  PortRange : Nat × Nat
  Interfaces : Option (List String)
  deriving DecidableEq, Repr

/-- Go: `type jsonRuleSet struct`. -/
structure jsonRuleSet where
  Configuration : jsonConfiguration
  Rules : List jsonRule

/-- Go: `type namedFirewall struct`; `φ` is the type of the values of interface
`Firewall`. -/
structure namedFirewall (φ : Type) where
  Name : String
  Firewall : φ
  deriving DecidableEq, Repr

/-- The panic of the failed type assertion `v.(string)`. -/
def assertStringPanic (v : JsonValue) : String :=
  "interface conversion: interface {} is " ++ v.dynamicType ++ ", not string"

/-- The body of the `range` loop of `createSourcesFromConfiguration`, run over
the entries still to visit with the map `sources` built so far. -/
def createSourcesLoop :
    List (String × PropertyBag) → GoMap String Source → Outcome (GoMap String Source)
  | [], sources => .ret (some sources) none
  | (configurationSourceName, configurationSource) :: rest, sources =>
    let sourceName := strings.ToLower configurationSourceName
    match GoMap.get configurationSource "type" with
    | none => .ret none (some ("source " ++ sourceName ++ ": missing type"))
    | some (.string sourceType) =>
      if strings.ToLower sourceType = SourceCloudflare then
        match cloudflare.New with
        | (_, some err) => .ret none (some ("source " ++ sourceName ++ ": " ++ err))
        | (source, none) =>
          createSourcesLoop rest (GoMap.set sources sourceName (Source.cloudflare source))
      else
        .ret none (some ("source " ++ sourceType ++ ": unknown type"))
    | some v => .panic (assertStringPanic v)

/-- Go: `createSourcesFromConfiguration`. -/
def createSourcesFromConfiguration (c : jsonConfiguration) : Outcome (GoMap String Source) :=
  createSourcesLoop c.Sources []

/-- The body of the `range` loop of `createFirewallsFromConfiguration`. -/
def createFirewallsLoop :
    List (String × PropertyBag) → GoMap String Firewall → Outcome (GoMap String Firewall)
  | [], firewalls => .ret (some firewalls) none
  | (configurationFirewallName, configurationFirewall) :: rest, firewalls =>
    let firewallName := strings.ToLower configurationFirewallName
    match GoMap.get configurationFirewall "type" with
    | none => .ret none (some ("firewall " ++ firewallName ++ ": missing type"))
    | some (.string firewallType) =>
      if strings.ToLower firewallType = FirewallHetzner then
        match hetzner.New with
        | (_, some err) => .ret none (some ("firewall " ++ firewallName ++ ": " ++ err))
        | (firewall, none) =>
          createFirewallsLoop rest (GoMap.set firewalls firewallName (Firewall.hetzner firewall))
      else
        .ret none (some ("firewall " ++ firewallName ++ ": unknown type"))
    | some v => .panic (assertStringPanic v)

/-- Go: `createFirewallsFromConfiguration`. -/
def createFirewallsFromConfiguration (c : jsonConfiguration) :
    Outcome (GoMap String Firewall) :=
  createFirewallsLoop c.Destinations []

/-- The `switch` on the lower-cased action of a rule; `none` is the `default`
branch. -/
def matchAction (a : String) : Option Action :=
  if strings.ToLower a = ActionAllow then some ActionAllow
  else if strings.ToLower a = ActionDeny then some ActionDeny
  else none

/-- The body of the loop of `createRulesFromConfiguration`, run from index `i`
over the declarations still to visit with the map `rules` built so far. -/
def createRulesLoop {σ φ : Type} [DecidableEq φ]
    (sources : GoMap String σ) (firewalls : GoMap String φ) :
    Nat → List jsonRule → GoMap (namedFirewall φ) (List (Rule σ)) →
      Outcome (GoMap (namedFirewall φ) (List (Rule σ)))
  | _, [], rules => .ret (some rules) none
  | i, configurationRule :: rest, rules =>
    let firewallName := strings.ToLower configurationRule.Destination
    match GoMap.get firewalls firewallName with
    | none => .ret none (some ("rule index " ++ fmtInt i ++ ": destination not configured"))
    | some firewall =>
      let sourceName := strings.ToLower configurationRule.Source
      match GoMap.get sources sourceName with
      | none => .ret none (some ("rule index " ++ fmtInt i ++ ": source not configured"))
      | some source =>
        let nf : namedFirewall φ := { Name := firewallName, Firewall := firewall }
        let rules1 := if (GoMap.get rules nf).isNone then GoMap.set rules nf [] else rules
        match matchAction configurationRule.Action with
        | none =>
          .ret none (some ("rule index " ++ fmtInt i ++ ": action " ++
            configurationRule.Action ++ " invalid"))
        | some action =>
          let rule : Rule σ :=
            { Action := action
              Source := source
              Port := configurationRule.Port
              Ports := configurationRule.Ports
              PortRange := configurationRule.PortRange
              Interfaces := configurationRule.Interfaces }
          createRulesLoop sources firewalls (i + 1) rest
            (GoMap.set rules1 nf (((GoMap.get rules1 nf).getD []) ++ [rule]))

/-- Go: `createRulesFromConfiguration`. -/
def createRulesFromConfiguration {σ φ : Type} [DecidableEq φ]
    (sources : GoMap String σ) (firewalls : GoMap String φ) (jsonRules : List jsonRule) :
    Outcome (GoMap (namedFirewall φ) (List (Rule σ))) :=
  createRulesLoop sources firewalls 0 jsonRules []

/-- Go: `ParseRulesFromJsonFile` from the decoded document on: the two
registries, then the rule compiler. -/
def parseRuleSet (ruleset : jsonRuleSet) :
    Outcome (GoMap (namedFirewall Firewall) (List (Rule Source))) :=
  match createSourcesFromConfiguration ruleset.Configuration with
  | .panic msg => .panic msg
  | .ret _ (some err) => .ret none (some err)
  | .ret sources none =>
    match createFirewallsFromConfiguration ruleset.Configuration with
    | .panic msg => .panic msg
    | .ret _ (some err) => .ret none (some err)
    | .ret firewalls none =>
      createRulesFromConfiguration (sources.getD []) (firewalls.getD []) ruleset.Rules

/-- Whether the characters `part` stand at the start of `text`. -/
def startsWithChars : List Char → List Char → Bool
  | _, [] => true
  | [], _ :: _ => false
  | c :: cs, p :: ps => decide (c = p) && startsWithChars cs ps

/-- Whether the characters `part` stand somewhere in `text`. -/
def containsChars : List Char → List Char → Bool
  | [], part => startsWithChars [] part
  | c :: cs, part => startsWithChars (c :: cs) part || containsChars cs part

/-- Go: `strings.Contains`, the check that the tests make on error texts. -/
def strings.Contains (s substr : String) : Bool := containsChars s.data substr.data

/-! ## Specification-side definitions -/

/-- The map after one iteration of the loop, for a declaration that passes the
checks: the entry of `nf` is created when absent, then the rule is appended. -/
def stepRules {σ φ : Type} [DecidableEq φ] (rules : GoMap (namedFirewall φ) (List (Rule σ)))
    (nf : namedFirewall φ) (rule : Rule σ) : GoMap (namedFirewall φ) (List (Rule σ)) :=
  GoMap.set (if (GoMap.get rules nf).isNone then GoMap.set rules nf [] else rules) nf
    (((GoMap.get (if (GoMap.get rules nf).isNone then GoMap.set rules nf [] else rules) nf).getD
      []) ++ [rule])

/-- The key under which the rule of declaration `d` is grouped: the lower-cased
destination together with the firewall registered under it. -/
def keyOf {φ : Type} (firewalls : GoMap String φ) (d : jsonRule) : Option (namedFirewall φ) :=
  (GoMap.get firewalls (strings.ToLower d.Destination)).map
    fun fw => { Name := strings.ToLower d.Destination, Firewall := fw }

/-- The enumeration value that the specification assigns to a declared action:
`allow` when the action lower-cases to that word, `deny` when it lower-cases to
that word, and none otherwise. -/
def actionOf (a : String) : Option Action :=
  if strings.ToLower a = "allow" then some "allow"
  else if strings.ToLower a = "deny" then some "deny"
  else none

/-- The rule that the specification assigns to declaration `d`: the enumeration
value of its action, the source registered under the lower-cased source name,
and the port and interface fields of `d` as they are. -/
def ruleOf {σ : Type} (sources : GoMap String σ) (d : jsonRule) : Option (Rule σ) :=
  (GoMap.get sources (strings.ToLower d.Source)).bind fun src =>
    (actionOf d.Action).map fun a =>
      { Action := a, Source := src, Port := d.Port, Ports := d.Ports,
        PortRange := d.PortRange, Interfaces := d.Interfaces }

/-- A declaration that passes the three checks of the rule compiler. -/
def ruleValid {σ φ : Type} (sources : GoMap String σ) (firewalls : GoMap String φ)
    (d : jsonRule) : Prop :=
  strings.ToLower d.Destination ∈ GoMap.keys firewalls ∧
  strings.ToLower d.Source ∈ GoMap.keys sources ∧
  (strings.ToLower d.Action = "allow" ∨ strings.ToLower d.Action = "deny")

/-- The error text that the specification assigns to an invalid declaration `d`
at index `i`: destination first, then source, then action. -/
def ruleErrorText {σ φ : Type} (sources : GoMap String σ) (firewalls : GoMap String φ)
    (i : Nat) (d : jsonRule) : String :=
  if strings.ToLower d.Destination ∉ GoMap.keys firewalls then
    "rule index " ++ fmtInt i ++ ": destination not configured"
  else if strings.ToLower d.Source ∉ GoMap.keys sources then
    "rule index " ++ fmtInt i ++ ": source not configured"
  else
    "rule index " ++ fmtInt i ++ ": action " ++ d.Action ++ " invalid"

/-- A property bag whose `type` is a string that lower-cases to `tag`. -/
def hasTypeTag (tag : String) (bag : PropertyBag) : Prop :=
  ∃ t, GoMap.get bag "type" = some (.string t) ∧ strings.ToLower t = tag

/-- The registry in which the lower-cased name of every entry of `entries`, in
order, is assigned `v`, starting from the map `acc`. -/
def registryOf {V : Type} (v : V) : List (String × PropertyBag) → GoMap String V → GoMap String V
  | [], acc => acc
  | e :: rest, acc => registryOf v rest (GoMap.set acc (strings.ToLower e.1) v)

/-- An entry of a configuration map with its name lower-cased. -/
def normalizeEntry (e : String × PropertyBag) : String × PropertyBag :=
  (strings.ToLower e.1, e.2)

/-- Two declarations that agree up to the letter case of their destination,
source and action. -/
def sameRuleUpToCase (d d' : jsonRule) : Prop :=
  strings.ToLower d'.Destination = strings.ToLower d.Destination ∧
  strings.ToLower d'.Source = strings.ToLower d.Source ∧
  strings.ToLower d'.Action = strings.ToLower d.Action ∧
  d'.Port = d.Port ∧ d'.Ports = d.Ports ∧ d'.PortRange = d.PortRange ∧
  d'.Interfaces = d.Interfaces

/-! ## Example inputs -/

/-- A property bag `{"type": t}`. -/
def typedBag (t : String) : PropertyBag := [("type", .string t)]

/-- The value `CloudflareSource{}` as a `Source`. -/
def cloudflareSource : Source := Source.cloudflare CloudflareSource.mk

/-- The value `HetznerFirewall{}` as a `Firewall`. -/
def hetznerFirewall : Firewall := Firewall.hetzner HetznerFirewall.mk

/-- A source registry with the one entry `cloudflare`. -/
def exampleSources : GoMap String Source := [("cloudflare", cloudflareSource)]

/-- A firewall registry with the entries `hetzner`, `backup` and `idle`. -/
def exampleFirewalls : GoMap String Firewall :=
  [("hetzner", hetznerFirewall), ("backup", hetznerFirewall), ("idle", hetznerFirewall)]

/-- A declaration with only `port` among the optional fields. -/
def decl (action source destination : String) (port : Nat) : jsonRule :=
  { Action := action, Source := source, Destination := destination, Port := port,
    Ports := none, PortRange := (0, 0), Interfaces := none }

/-- Eight valid declarations; those at indices 2, 5 and 7 name `hetzner`, and
the one at index 3 writes `backup` in upper case with the Kelvin sign U+212A
for its `K`. -/
def exampleRules : List jsonRule :=
  [decl "allow" "cloudflare" "backup" 1, decl "deny" "cloudflare" "backup" 2,
   decl "Allow" "CloudFlare" "Hetzner" 3, decl "allow" "cloudflare" "BAC\u212AUP" 4,
   decl "allow" "cloudflare" "backup" 5, decl "DENY" "cloudflare" "hetzner" 6,
   decl "allow" "cloudflare" "backup" 7, decl "allow" "cloudflare" "HETZNER" 8]

/-- The rule compiled from `decl _ "cloudflare" _ port` with action `a`. -/
def exampleRule (a : Action) (port : Nat) : Rule Source :=
  { Action := a, Source := cloudflareSource, Port := port, Ports := none,
    PortRange := (0, 0), Interfaces := none }

/-- The rule set compiled from `exampleRules`. -/
def exampleCompiled : GoMap (namedFirewall Firewall) (List (Rule Source)) :=
  [({ Name := "backup", Firewall := hetznerFirewall },
      [exampleRule "allow" 1, exampleRule "deny" 2, exampleRule "allow" 4,
       exampleRule "allow" 5, exampleRule "allow" 7]),
   ({ Name := "hetzner", Firewall := hetznerFirewall },
      [exampleRule "allow" 3, exampleRule "deny" 6, exampleRule "allow" 8])]

/-- Three declarations; the one at index 1 has an unknown destination and an
unknown source, the one at index 2 an invalid action. -/
def invalidRules : List jsonRule :=
  [decl "allow" "cloudflare" "BAC\u212AUP" 1, decl "allow" "nowhere" "Unknown" 2,
   decl "Permit" "cloudflare" "hetzner" 3]

/-- Two source entries whose names differ only in case. -/
def collidingSources : jsonConfiguration :=
  { Sources := [("A", typedBag "cloudflare"), ("a", typedBag "cloudflare")], Destinations := [] }

/-- Two source entries whose names are the Kelvin sign U+212A and the letter
`k`. -/
def kelvinSources : jsonConfiguration :=
  { Sources := [("\u212A", typedBag "cloudflare"), ("k", typedBag "cloudflare")],
    Destinations := [] }

/-- Two source entries with distinct lower-cased names, one with an upper-case
type tag. -/
def twoSources : jsonConfiguration :=
  { Sources := [("CAF\u00C9", typedBag "Cloudflare"), ("edge", typedBag "cloudflare")],
    Destinations := [] }

/-- One destination entry of type `ufw`. -/
def ufwDestination : jsonConfiguration :=
  { Sources := [], Destinations := [("fw", typedBag "ufw")] }

/-- An entry of unknown type visited before an entry without `type`, in both
maps. -/
def unknownThenMissing : jsonConfiguration :=
  { Sources := [("a", typedBag "unknown"), ("b", [])],
    Destinations := [("a", typedBag "unknown"), ("b", [])] }

/-- A valid entry visited before an entry without `type`, in both maps. -/
def validThenMissing : jsonConfiguration :=
  { Sources := [("ok", typedBag "cloudflare"), ("CAF\u00C9", [("a", .string "b")])],
    Destinations := [("ok", typedBag "hetzner"), ("CAF\u00C9", [])] }

/-- One entry whose `type` is the number 5, in both maps. -/
def numericType : jsonConfiguration :=
  { Sources := [("test", [("type", .number 5)])],
    Destinations := [("test", [("type", .number 5)])] }

/-- Two entries without `type`, visited in the order `a`, `b`. -/
def missingAB : jsonConfiguration :=
  { Sources := [("a", []), ("b", [])], Destinations := [("a", []), ("b", [])] }

/-- The entries of `missingAB`, visited in the order `b`, `a`. -/
def missingBA : jsonConfiguration :=
  { Sources := [("b", []), ("a", [])], Destinations := [("b", []), ("a", [])] }

/-- Two valid entries per map, visited in the order `x`, `y`. -/
def validXY : jsonConfiguration :=
  { Sources := [("x", typedBag "cloudflare"), ("y", typedBag "cloudflare")],
    Destinations := [("x", typedBag "hetzner"), ("y", typedBag "hetzner")] }

/-- The entries of `validXY`, visited in the order `y`, `x`. -/
def validYX : jsonConfiguration :=
  { Sources := [("y", typedBag "cloudflare"), ("x", typedBag "cloudflare")],
    Destinations := [("y", typedBag "hetzner"), ("x", typedBag "hetzner")] }

/-- A document in lower case, with the source `caf\u00E9` and the destinations
`hetzner` and `backup`. -/
def lowerCaseDocument : jsonRuleSet :=
  { Configuration :=
      { Sources := [("caf\u00E9", typedBag "cloudflare")],
        Destinations := [("hetzner", typedBag "hetzner"), ("backup", typedBag "hetzner")] }
    Rules := [decl "allow" "caf\u00E9" "hetzner" 8080, decl "deny" "caf\u00E9" "backup" 22,
      decl "deny" "caf\u00E9" "hetzner" 443] }

/-- The document `lowerCaseDocument` with the case of names and actions changed
(the source written `CAF\u00C9`, the `K` of `BACKUP` written as the Kelvin sign
U+212A) and the destinations visited in the other order. -/
def mixedCaseDocument : jsonRuleSet :=
  { Configuration :=
      { Sources := [("CAF\u00C9", typedBag "cloudflare")],
        Destinations := [("BAC\u212AUP", typedBag "hetzner"), ("Hetzner", typedBag "hetzner")] }
    Rules := [decl "Allow" "CAF\u00C9" "Hetzner" 8080, decl "DENY" "Caf\u00C9" "Backup" 22,
      decl "deny" "caf\u00E9" "HETZNER" 443] }

/-- The rule set compiled from `lowerCaseDocument`. -/
def lowerCaseCompiled : GoMap (namedFirewall Firewall) (List (Rule Source)) :=
  [({ Name := "hetzner", Firewall := hetznerFirewall },
      [exampleRule "allow" 8080, exampleRule "deny" 443]),
   ({ Name := "backup", Firewall := hetznerFirewall }, [exampleRule "deny" 22])]

/-- The document of the test `TestParsesRulesCorrectly`. -/
def testDocument : jsonRuleSet :=
  { Configuration :=
      { Sources := [("cloudflare", typedBag "cloudflare")],
        Destinations := [("hetzner", typedBag "hetzner")] }
    Rules := [decl "allow" "cloudflare" "hetzner" 8080] }

/-- Two declarations; the one at index 0 has an unknown destination, the one at
index 1 resolves and has an invalid action. -/
def badActionAfterBadDestination : List jsonRule :=
  [decl "allow" "cloudflare" "nowhere" 1, decl "Permit" "cloudflare" "hetzner" 2]

/-- Two declarations; the one at index 0 is valid, the one at index 1 resolves
and has an invalid action. -/
def badActionAfterValid : List jsonRule :=
  [decl "allow" "cloudflare" "hetzner" 1, decl "Permit" "CloudFlare" "BAC\u212AUP" 2]

/-- The entry `Edge` of the unknown type `unknown`, in both maps. -/
def unknownTypeEntry : jsonConfiguration :=
  { Sources := [("Edge", typedBag "unknown")], Destinations := [("Edge", typedBag "unknown")] }

/-- The entry `Edge` of the unknown type `Unknown-Kind`, in both maps. -/
def unknownKindEntry : jsonConfiguration :=
  { Sources := [("Edge", typedBag "Unknown-Kind")],
    Destinations := [("Edge", typedBag "Unknown-Kind")] }

/-- A document whose sources, destinations and rules are all invalid. -/
def allInvalidDocument : jsonRuleSet :=
  { Configuration := unknownThenMissing, Rules := invalidRules }

/-- A document whose sources are valid and whose destinations and rules are
invalid. -/
def invalidDestinationsDocument : jsonRuleSet :=
  { Configuration :=
      { Sources := [("cloudflare", typedBag "cloudflare")],
        Destinations := [("a", typedBag "unknown"), ("b", [])] }
    Rules := invalidRules }

/-! ## The lower-casing of the Go library at some names -/

/-- The mapping on names with letters of several scripts: the Kelvin sign
U+212A becomes `k`, `\u00C9` becomes `\u00E9`, the dotted capital U+0130 becomes
`i`, the capital sharp s U+1E9E becomes `\u00DF`, Greek and Cyrillic capitals
become their small letters, and digits, signs and small letters (the dotless
U+0131 among them) stay. -/
theorem toLower_at_names :
    strings.ToLower "BAC\u212AUP" = "backup" ∧
      strings.ToLower "CAF\u00C9" = "caf\u00E9" ∧
      strings.ToLower "\u0130\u1E9E\u03A3\u0416" = "i\u00DF\u03C3\u0436" ∧
      strings.ToLower "HetZner-09_\u0131" = "hetzner-09_\u0131" ∧
      strings.ToLower "caf\u00E9" = "caf\u00E9" := by
  decide

/-- The rule compiler and the source registry at names outside ASCII: the
destination `BAC\u212AUP` resolves to the firewall `backup`, so that the check
of the source and of the action is reached and a valid declaration is grouped
under `backup`; the entry `CAF\u00C9` is registered, and reported, as
`caf\u00E9`. -/
theorem names_outside_ascii_resolve :
    createRulesFromConfiguration exampleSources exampleFirewalls
        [decl "allow" "nowhere" "BAC\u212AUP" 1] =
        .ret none (some "rule index 0: source not configured") ∧
      createRulesFromConfiguration exampleSources exampleFirewalls
        [decl "Permit" "cloudflare" "BAC\u212AUP" 1] =
        .ret none (some "rule index 0: action Permit invalid") ∧
      createRulesFromConfiguration exampleSources exampleFirewalls
        [decl "allow" "cloudflare" "BAC\u212AUP" 1] =
        .ret (some [({ Name := "backup", Firewall := hetznerFirewall },
          [exampleRule "allow" 1])]) none ∧
      createSourcesFromConfiguration
        { Sources := [("CAF\u00C9", typedBag "cloudflare")], Destinations := [] } =
        .ret (some [("caf\u00E9", cloudflareSource)]) none ∧
      createSourcesFromConfiguration { Sources := [("CAF\u00C9", [])], Destinations := [] } =
        .ret none (some "source caf\u00E9: missing type") ∧
      createRulesFromConfiguration [("caf\u00E9", cloudflareSource)] exampleFirewalls
        [decl "allow" "CAF\u00C9" "hetzner" 1] =
        .ret (some [({ Name := "hetzner", Firewall := hetznerFirewall },
          [exampleRule "allow" 1])]) none :=
  ⟨by decide, by decide, by decide, by decide, by decide, by decide⟩

/-! ## Lemmas on Go maps -/

namespace GoMap

variable {K V : Type} [DecidableEq K]

theorem get_set_self (m : GoMap K V) (k : K) (v : V) : get (set m k v) k = some v := by
  induction m with
  | nil => simp [set, get]
  | cons e m ih =>
    obtain ⟨k', v'⟩ := e
    by_cases h : k' = k
    · simp [set, get, h]
    · simp [set, get, h, ih]

theorem get_set_of_ne (m : GoMap K V) {k k' : K} (v : V) (h : k ≠ k') :
    get (set m k v) k' = get m k' := by
  induction m with
  | nil => simp [set, get, h]
  | cons e m ih =>
    obtain ⟨k₀, v₀⟩ := e
    by_cases h₀ : k₀ = k
    · subst h₀
      simp [set, get, h]
    · by_cases h₁ : k₀ = k'
      · subst h₁
        simp [set, get, h₀]
      · simp [set, get, h₀, h₁, ih]

theorem get_eq_none_iff (m : GoMap K V) (k : K) : get m k = none ↔ k ∉ keys m := by
  induction m with
  | nil => simp [get, keys]
  | cons e m ih =>
    obtain ⟨k', v'⟩ := e
    by_cases h : k' = k
    · simp [get, keys, h]
    · have h' : ¬ k = k' := fun e => h e.symm
      simp only [get, h, if_false, ih, keys, List.map_cons, List.mem_cons, h', false_or]

theorem mem_keys_iff (m : GoMap K V) (k : K) : k ∈ keys m ↔ ∃ v, get m k = some v := by
  rw [← not_iff_not, ← get_eq_none_iff]
  cases get m k <;> simp

theorem keys_set (m : GoMap K V) (k : K) (v : V) :
    keys (set m k v) = if k ∈ keys m then keys m else keys m ++ [k] := by
  induction m with
  | nil => simp [set, keys]
  | cons e m ih =>
    obtain ⟨k', v'⟩ := e
    by_cases h : k' = k
    · subst h
      simp [set, keys]
    · have h' : ¬ k = k' := fun e => h e.symm
      have ih' := ih
      simp only [keys] at ih'
      simp only [set, h, if_false, keys, List.map_cons, List.mem_cons, h', false_or, ih']
      split <;> simp

theorem nodup_keys_set (m : GoMap K V) (k : K) (v : V) (h : (keys m).Nodup) :
    (keys (set m k v)).Nodup := by
  rw [keys_set]
  split
  · exact h
  · rename_i hk
    exact List.Nodup.append h (List.nodup_singleton k) (by simpa using hk)

end GoMap

/-! ## Lemmas on the rule compiler -/

section RuleCompiler

variable {σ φ : Type} [DecidableEq φ]

/-- The `switch` of the code yields the enumeration value of the
specification. -/
theorem matchAction_eq_actionOf (a : String) : matchAction a = actionOf a := by
  unfold matchAction actionOf ActionAllow ActionDeny
  rfl

theorem matchAction_eq_some_iff (a : String) :
    (∃ x, matchAction a = some x) ↔
      (strings.ToLower a = "allow" ∨ strings.ToLower a = "deny") := by
  unfold matchAction ActionAllow ActionDeny
  by_cases h₁ : strings.ToLower a = "allow"
  · simp [h₁]
  · by_cases h₂ : strings.ToLower a = "deny"
    · simp [h₁, h₂]
    · simp [h₁, h₂]

theorem matchAction_eq_none_iff (a : String) :
    matchAction a = none ↔
      ¬ (strings.ToLower a = "allow" ∨ strings.ToLower a = "deny") := by
  rw [← matchAction_eq_some_iff]
  cases matchAction a <;> simp

theorem get_stepRules_self (rules : GoMap (namedFirewall φ) (List (Rule σ)))
    (nf : namedFirewall φ) (rule : Rule σ) :
    GoMap.get (stepRules rules nf rule) nf = some ((GoMap.get rules nf).getD [] ++ [rule]) := by
  unfold stepRules
  rw [GoMap.get_set_self]
  cases h : GoMap.get rules nf with
  | none => simp [GoMap.get_set_self]
  | some l => simp [h]

theorem get_stepRules_of_ne (rules : GoMap (namedFirewall φ) (List (Rule σ)))
    {nf key : namedFirewall φ} (rule : Rule σ) (h : nf ≠ key) :
    GoMap.get (stepRules rules nf rule) key = GoMap.get rules key := by
  unfold stepRules
  rw [GoMap.get_set_of_ne _ _ h]
  split
  · exact GoMap.get_set_of_ne _ _ h
  · rfl

theorem createRulesLoop_cons_valid (sources : GoMap String σ) (firewalls : GoMap String φ)
    (i : Nat) (d : jsonRule) (rest : List jsonRule)
    (rules : GoMap (namedFirewall φ) (List (Rule σ))) {fw : φ} {src : σ} {a : Action}
    (hF : GoMap.get firewalls (strings.ToLower d.Destination) = some fw)
    (hS : GoMap.get sources (strings.ToLower d.Source) = some src)
    (hA : matchAction d.Action = some a) :
    createRulesLoop sources firewalls i (d :: rest) rules =
      createRulesLoop sources firewalls (i + 1) rest
        (stepRules rules { Name := strings.ToLower d.Destination, Firewall := fw }
          { Action := a, Source := src, Port := d.Port, Ports := d.Ports,
            PortRange := d.PortRange, Interfaces := d.Interfaces }) := by
  simp only [createRulesLoop, hF, hS, hA, stepRules]

theorem createRulesLoop_cons_noDestination (sources : GoMap String σ)
    (firewalls : GoMap String φ) (i : Nat) (d : jsonRule) (rest : List jsonRule)
    (rules : GoMap (namedFirewall φ) (List (Rule σ)))
    (hF : GoMap.get firewalls (strings.ToLower d.Destination) = none) :
    createRulesLoop sources firewalls i (d :: rest) rules =
      .ret none (some ("rule index " ++ fmtInt i ++ ": destination not configured")) := by
  simp only [createRulesLoop, hF]

theorem createRulesLoop_cons_noSource (sources : GoMap String σ)
    (firewalls : GoMap String φ) (i : Nat) (d : jsonRule) (rest : List jsonRule)
    (rules : GoMap (namedFirewall φ) (List (Rule σ))) {fw : φ}
    (hF : GoMap.get firewalls (strings.ToLower d.Destination) = some fw)
    (hS : GoMap.get sources (strings.ToLower d.Source) = none) :
    createRulesLoop sources firewalls i (d :: rest) rules =
      .ret none (some ("rule index " ++ fmtInt i ++ ": source not configured")) := by
  simp only [createRulesLoop, hF, hS]

theorem createRulesLoop_cons_badAction (sources : GoMap String σ)
    (firewalls : GoMap String φ) (i : Nat) (d : jsonRule) (rest : List jsonRule)
    (rules : GoMap (namedFirewall φ) (List (Rule σ))) {fw : φ} {src : σ}
    (hF : GoMap.get firewalls (strings.ToLower d.Destination) = some fw)
    (hS : GoMap.get sources (strings.ToLower d.Source) = some src)
    (hA : matchAction d.Action = none) :
    createRulesLoop sources firewalls i (d :: rest) rules =
      .ret none (some ("rule index " ++ fmtInt i ++ ": action " ++ d.Action ++ " invalid")) := by
  simp only [createRulesLoop, hF, hS, hA]

/-- What the loop does on its first declaration, in the words of the
specification-side definitions. -/
theorem createRulesLoop_cons (sources : GoMap String σ) (firewalls : GoMap String φ)
    (i : Nat) (d : jsonRule) (rest : List jsonRule)
    (rules : GoMap (namedFirewall φ) (List (Rule σ))) :
    (ruleValid sources firewalls d ∧ ∃ nf rule, keyOf firewalls d = some nf ∧
        ruleOf sources d = some rule ∧
        createRulesLoop sources firewalls i (d :: rest) rules =
          createRulesLoop sources firewalls (i + 1) rest (stepRules rules nf rule)) ∨
    (¬ ruleValid sources firewalls d ∧
        createRulesLoop sources firewalls i (d :: rest) rules =
          .ret none (some (ruleErrorText sources firewalls i d))) := by
  cases hF : GoMap.get firewalls (strings.ToLower d.Destination) with
  | none =>
    have hk := (GoMap.get_eq_none_iff _ _).1 hF
    right
    refine ⟨fun hv => hk hv.1, ?_⟩
    rw [createRulesLoop_cons_noDestination _ _ _ _ _ _ hF]
    simp [ruleErrorText, hk]
  | some fw =>
    have hk : strings.ToLower d.Destination ∈ GoMap.keys firewalls :=
      (GoMap.mem_keys_iff _ _).2 ⟨fw, hF⟩
    cases hS : GoMap.get sources (strings.ToLower d.Source) with
    | none =>
      have hs := (GoMap.get_eq_none_iff _ _).1 hS
      right
      refine ⟨fun hv => hs hv.2.1, ?_⟩
      rw [createRulesLoop_cons_noSource _ _ _ _ _ _ hF hS]
      simp [ruleErrorText, hk, hs]
    | some src =>
      have hs : strings.ToLower d.Source ∈ GoMap.keys sources :=
        (GoMap.mem_keys_iff _ _).2 ⟨src, hS⟩
      cases hA : matchAction d.Action with
      | none =>
        have ha := (matchAction_eq_none_iff _).1 hA
        right
        refine ⟨fun hv => ha hv.2.2, ?_⟩
        rw [createRulesLoop_cons_badAction _ _ _ _ _ _ hF hS hA]
        simp [ruleErrorText, hk, hs]
      | some a =>
        left
        refine ⟨⟨hk, hs, (matchAction_eq_some_iff _).1 ⟨a, hA⟩⟩, _, _, ?_, ?_,
          createRulesLoop_cons_valid _ _ _ _ _ _ hF hS hA⟩
        · simp [keyOf, hF]
        · have hA' : actionOf d.Action = some a := by
            rw [← matchAction_eq_actionOf]; exact hA
          simp [ruleOf, hS, hA']

theorem createRulesLoop_ok (sources : GoMap String σ) (firewalls : GoMap String φ)
    (ds : List jsonRule) :
    ∀ (i : Nat) (rules : GoMap (namedFirewall φ) (List (Rule σ))),
      (∀ d ∈ ds, ruleValid sources firewalls d) →
      ∃ m, createRulesLoop sources firewalls i ds rules = .ret (some m) none := by
  induction ds with
  | nil => intro i rules _; exact ⟨rules, rfl⟩
  | cons d rest ih =>
    intro i rules hv
    rcases createRulesLoop_cons sources firewalls i d rest rules with
      ⟨_, nf, rule, _, _, h⟩ | ⟨hn, _⟩
    · rw [h]
      exact ih _ _ fun x hx => hv x (List.mem_cons_of_mem _ hx)
    · exact absurd (hv d (List.mem_cons_self _ _)) hn

theorem createRulesLoop_err (sources : GoMap String σ) (firewalls : GoMap String φ)
    (pre : List jsonRule) (d : jsonRule) (post : List jsonRule) :
    ∀ (i : Nat) (rules : GoMap (namedFirewall φ) (List (Rule σ))),
      (∀ x ∈ pre, ruleValid sources firewalls x) → ¬ ruleValid sources firewalls d →
      createRulesLoop sources firewalls i (pre ++ d :: post) rules =
        .ret none (some (ruleErrorText sources firewalls (i + pre.length) d)) := by
  induction pre with
  | nil =>
    intro i rules _ hd
    rcases createRulesLoop_cons sources firewalls i d post rules with ⟨hv, _⟩ | ⟨_, h⟩
    · exact absurd hv hd
    · simpa using h
  | cons x pre ih =>
    intro i rules hv hd
    rcases createRulesLoop_cons sources firewalls i x (pre ++ d :: post) rules with
      ⟨_, nf, rule, _, _, h⟩ | ⟨hn, _⟩
    · rw [List.cons_append, h, ih (i + 1) _ (fun y hy => hv y (List.mem_cons_of_mem _ hy)) hd]
      have hi : i + 1 + pre.length = i + (pre.length + 1) := by omega
      simp only [List.length_cons, hi]
    · exact absurd (hv x (List.mem_cons_self _ _)) hn

/-- Either every element satisfies `p`, or the list splits at its first element
that does not. -/
theorem all_or_first_failure {α : Type} (p : α → Prop) (l : List α) :
    (∀ x ∈ l, p x) ∨
      ∃ pre d post, l = pre ++ d :: post ∧ (∀ x ∈ pre, p x) ∧ ¬ p d := by
  induction l with
  | nil => left; simp
  | cons a l ih =>
    by_cases ha : p a
    · rcases ih with h | ⟨pre, d, post, hl, hpre, hd⟩
      · left
        intro x hx
        rcases List.mem_cons.1 hx with rfl | hx
        · exact ha
        · exact h x hx
      · right
        refine ⟨a :: pre, d, post, by simp [hl], ?_, hd⟩
        intro x hx
        rcases List.mem_cons.1 hx with rfl | hx
        · exact ha
        · exact hpre x hx
    · right
      exact ⟨[], a, l, rfl, by simp, ha⟩

/-- The entry of `key` after the loop, when the loop succeeds: the rules of the
declarations grouped under `key`, appended in order to what was there. -/
theorem createRulesLoop_get (sources : GoMap String σ) (firewalls : GoMap String φ)
    (ds : List jsonRule) (key : namedFirewall φ) :
    ∀ (i : Nat) (rules m : GoMap (namedFirewall φ) (List (Rule σ))),
      createRulesLoop sources firewalls i ds rules = .ret (some m) none →
      GoMap.get m key =
        if ((ds.filter fun d => keyOf firewalls d = some key).filterMap
          (ruleOf sources)).isEmpty
        then GoMap.get rules key
        else some ((GoMap.get rules key).getD [] ++
          (ds.filter fun d => keyOf firewalls d = some key).filterMap (ruleOf sources)) := by
  induction ds with
  | nil =>
    intro i rules m h
    simp only [createRulesLoop, Outcome.ret.injEq, Option.some.injEq, and_true] at h
    simp [h]
  | cons d rest ih =>
    intro i rules m h
    rcases createRulesLoop_cons sources firewalls i d rest rules with
      ⟨_, nf, rule, hk, hr, hstep⟩ | ⟨_, herr⟩
    · rw [hstep] at h
      rw [ih _ _ _ h]
      by_cases hnf : nf = key
      · subst hnf
        simp [List.filter_cons, hk, hr, get_stepRules_self]
      · have hk' : ¬ keyOf firewalls d = some key := by
          rw [hk]; simpa using hnf
        have hf : (List.filter (fun d => decide (keyOf firewalls d = some key)) (d :: rest)) =
            List.filter (fun d => decide (keyOf firewalls d = some key)) rest := by
          simp [List.filter_cons, hk']
        rw [hf, get_stepRules_of_ne _ _ hnf]
    · rw [herr] at h
      simp at h

theorem createRulesLoop_valid_of_ok (sources : GoMap String σ) (firewalls : GoMap String φ)
    (ds : List jsonRule) (i : Nat) (rules m : GoMap (namedFirewall φ) (List (Rule σ)))
    (e : Option String)
    (h : createRulesLoop sources firewalls i ds rules = .ret (some m) e) :
    ∀ d ∈ ds, ruleValid sources firewalls d := by
  rcases all_or_first_failure (ruleValid sources firewalls) ds with hv | ⟨pre, d, post, hl, hpre, hd⟩
  · exact hv
  · rw [hl, createRulesLoop_err sources firewalls pre d post i rules hpre hd] at h
    simp at h

omit [DecidableEq φ] in
theorem ruleOf_isSome_of_valid (sources : GoMap String σ) (firewalls : GoMap String φ)
    (d : jsonRule) (h : ruleValid sources firewalls d) : ∃ r, ruleOf sources d = some r := by
  obtain ⟨src, hs⟩ := (GoMap.mem_keys_iff _ _).1 h.2.1
  obtain ⟨a, ha⟩ := (matchAction_eq_some_iff _).2 h.2.2
  have ha' : actionOf d.Action = some a := by
    rw [← matchAction_eq_actionOf]; exact ha
  simp [ruleOf, hs, ha']

theorem filterMap_map_some {α β : Type} (f : α → Option β) (l : List α)
    (h : ∀ x ∈ l, ∃ y, f x = some y) : (l.filterMap f).map some = l.map f := by
  induction l with
  | nil => rfl
  | cons a l ih =>
    obtain ⟨y, hy⟩ := h a (List.mem_cons_self _ _)
    have ih' := ih fun x hx => h x (List.mem_cons_of_mem _ hx)
    simp [List.filterMap_cons, hy, ih']

theorem filterMap_isEmpty {α β : Type} (f : α → Option β) (l : List α)
    (h : ∀ x ∈ l, ∃ y, f x = some y) : (l.filterMap f).isEmpty = l.isEmpty := by
  cases l with
  | nil => rfl
  | cons a l =>
    obtain ⟨y, hy⟩ := h a (List.mem_cons_self _ _)
    simp [List.filterMap_cons, hy]

/-- The entry of `key` in a successful result of the rule compiler. -/
theorem createRules_get (sources : GoMap String σ) (firewalls : GoMap String φ)
    (ds : List jsonRule) (m : GoMap (namedFirewall φ) (List (Rule σ)))
    (h : createRulesFromConfiguration sources firewalls ds = .ret (some m) none)
    (key : namedFirewall φ) :
    GoMap.get m key =
      if (ds.filter fun d => keyOf firewalls d = some key).isEmpty then none
      else some ((ds.filter fun d => keyOf firewalls d = some key).filterMap (ruleOf sources)) := by
  have hv := createRulesLoop_valid_of_ok sources firewalls ds 0 [] m none h
  have hsome : ∀ x ∈ ds.filter (fun d => keyOf firewalls d = some key),
      ∃ y, ruleOf sources x = some y := fun x hx =>
    ruleOf_isSome_of_valid sources firewalls x (hv x (List.mem_of_mem_filter hx))
  rw [createRulesLoop_get sources firewalls ds key 0 [] m h, filterMap_isEmpty _ _ hsome]
  simp [GoMap.get]

omit [DecidableEq φ] in
theorem keyOf_eq_some_iff (firewalls : GoMap String φ) (d : jsonRule) (name : String) (fw : φ) :
    keyOf firewalls d = some { Name := name, Firewall := fw } ↔
      strings.ToLower d.Destination = name ∧ GoMap.get firewalls name = some fw := by
  unfold keyOf
  constructor
  · intro h
    cases hF : GoMap.get firewalls (strings.ToLower d.Destination) with
    | none => simp [hF] at h
    | some fw' =>
      simp only [hF, Option.map_some', Option.some.injEq, namedFirewall.mk.injEq] at h
      obtain ⟨h₁, h₂⟩ := h
      subst h₁ h₂
      exact ⟨rfl, hF⟩
  · rintro ⟨rfl, hF⟩
    simp [hF]

omit [DecidableEq φ] in
theorem ruleValid_congr (sources : GoMap String σ) (firewalls : GoMap String φ)
    {d d' : jsonRule}
    (h : (d'.Destination, d'.Source, d'.Action) = (d.Destination, d.Source, d.Action)) :
    (ruleValid sources firewalls d' ↔ ruleValid sources firewalls d) ∧
      ∀ i, ruleErrorText sources firewalls i d' = ruleErrorText sources firewalls i d := by
  simp only [Prod.mk.injEq] at h
  obtain ⟨h₁, h₂, h₃⟩ := h
  simp [ruleValid, ruleErrorText, h₁, h₂, h₃]

theorem createRulesLoop_error_congr (sources : GoMap String σ) (firewalls : GoMap String φ)
    (ds : List jsonRule) :
    ∀ (ds' : List jsonRule) (i : Nat) (rules rules' : GoMap (namedFirewall φ) (List (Rule σ))),
      ds'.map (fun d => (d.Destination, d.Source, d.Action)) =
        ds.map (fun d => (d.Destination, d.Source, d.Action)) →
      (createRulesLoop sources firewalls i ds' rules').error =
        (createRulesLoop sources firewalls i ds rules).error := by
  induction ds with
  | nil =>
    intro ds' i rules rules' h
    have : ds' = [] := by simpa using h
    subst this
    rfl
  | cons d rest ih =>
    intro ds' i rules rules' h
    cases ds' with
    | nil => simp at h
    | cons d' rest' =>
      simp only [List.map_cons, List.cons.injEq] at h
      obtain ⟨hd, hrest⟩ := h
      obtain ⟨hv, ht⟩ := ruleValid_congr sources firewalls hd
      rcases createRulesLoop_cons sources firewalls i d rest rules with
        ⟨hvd, _, _, _, _, h₁⟩ | ⟨hnd, h₁⟩ <;>
      rcases createRulesLoop_cons sources firewalls i d' rest' rules' with
        ⟨hvd', _, _, _, _, h₂⟩ | ⟨hnd', h₂⟩
      · rw [h₁, h₂]
        exact ih _ _ _ _ hrest
      · exact absurd (hv.2 hvd) hnd'
      · exact absurd (hv.1 hvd') hnd
      · rw [h₁, h₂, ht]

end RuleCompiler

/-! ## Lemmas on the two registries -/

section Registries

theorem mem_keys_registryOf {V : Type} (v : V) (l : List (String × PropertyBag)) :
    ∀ (acc : GoMap String V) (k : String),
      k ∈ GoMap.keys (registryOf v l acc) ↔
        k ∈ GoMap.keys acc ∨ k ∈ l.map (fun e => strings.ToLower e.1) := by
  induction l with
  | nil => intro acc k; simp [registryOf]
  | cons e l ih =>
    intro acc k
    rw [registryOf, ih, GoMap.keys_set]
    split <;> rename_i hmem
    · simp only [List.map_cons, List.mem_cons]
      constructor
      · rintro (h | h)
        · exact Or.inl h
        · exact Or.inr (Or.inr h)
      · rintro (h | h | h)
        · exact Or.inl h
        · exact Or.inl (h ▸ hmem)
        · exact Or.inr h
    · simp only [List.mem_append, List.mem_singleton, List.map_cons, List.mem_cons]
      tauto

theorem nodup_keys_registryOf {V : Type} (v : V) (l : List (String × PropertyBag)) :
    ∀ (acc : GoMap String V), (GoMap.keys acc).Nodup → (GoMap.keys (registryOf v l acc)).Nodup := by
  induction l with
  | nil => intro acc h; exact h
  | cons e l ih => intro acc h; exact ih _ (GoMap.nodup_keys_set _ _ _ h)

theorem get_registryOf {V : Type} (v : V) (l : List (String × PropertyBag)) :
    ∀ (acc : GoMap String V) (k : String),
      GoMap.get (registryOf v l acc) k =
        if k ∈ l.map (fun e => strings.ToLower e.1) then some v else GoMap.get acc k := by
  induction l with
  | nil => intro acc k; simp [registryOf]
  | cons e l ih =>
    intro acc k
    rw [registryOf, ih]
    by_cases h₁ : k ∈ l.map (fun e => strings.ToLower e.1)
    · simp [h₁]
    · by_cases h₂ : strings.ToLower e.1 = k
      · subst h₂
        simp [GoMap.get_set_self]
      · have h₃ : ¬ k = strings.ToLower e.1 := fun h => h₂ h.symm
        rw [GoMap.get_set_of_ne _ _ h₂]
        simp only [List.map_cons, List.mem_cons, h₃, false_or]

/-- The size of the registry built from the empty map is the number of distinct
lower-cased names. -/
theorem len_registryOf {V : Type} (v : V) (l : List (String × PropertyBag)) :
    GoMap.len (registryOf v l []) = (l.map (fun e => strings.ToLower e.1)).dedup.length := by
  have hperm : List.Perm (GoMap.keys (registryOf v l []))
      (l.map (fun e => strings.ToLower e.1)).dedup := by
    rw [List.perm_ext_iff_of_nodup (nodup_keys_registryOf v l [] (by simp [GoMap.keys]))
      (List.nodup_dedup _)]
    intro k
    rw [mem_keys_registryOf, List.mem_dedup]
    simp [GoMap.keys]
  have := hperm.length_eq
  simpa [GoMap.keys, GoMap.len] using this

theorem createSourcesLoop_cons_of_tag (name : String) (bag : PropertyBag)
    (rest : List (String × PropertyBag)) (acc : GoMap String Source)
    (h : hasTypeTag SourceCloudflare bag) :
    createSourcesLoop ((name, bag) :: rest) acc =
      createSourcesLoop rest
        (GoMap.set acc (strings.ToLower name) (Source.cloudflare CloudflareSource.mk)) := by
  obtain ⟨t, ht, hl⟩ := h
  simp [createSourcesLoop, ht, hl, cloudflare.New]

theorem createSourcesLoop_cons_of_not_tag (name : String) (bag : PropertyBag)
    (rest : List (String × PropertyBag)) (acc : GoMap String Source)
    (h : ¬ hasTypeTag SourceCloudflare bag) :
    (createSourcesLoop ((name, bag) :: rest) acc =
        .ret none (some ("source " ++ strings.ToLower name ++ ": missing type")) ∧
        GoMap.get bag "type" = none) ∨
      (∃ t, createSourcesLoop ((name, bag) :: rest) acc =
          .ret none (some ("source " ++ t ++ ": unknown type")) ∧
        GoMap.get bag "type" = some (.string t) ∧ strings.ToLower t ≠ SourceCloudflare) ∨
      (∃ v, createSourcesLoop ((name, bag) :: rest) acc = .panic (assertStringPanic v) ∧
        GoMap.get bag "type" = some v ∧ ∀ t, v ≠ .string t) := by
  cases hb : GoMap.get bag "type" with
  | none => left; simp [createSourcesLoop, hb]
  | some v =>
    right
    cases v with
    | string t =>
      left
      have hne : strings.ToLower t ≠ SourceCloudflare := fun hl => h ⟨t, hb, hl⟩
      exact ⟨t, by simp [createSourcesLoop, hb, hne], rfl, hne⟩
    | null => right; exact ⟨_, by simp [createSourcesLoop, hb], rfl, by simp⟩
    | bool b => right; exact ⟨_, by simp [createSourcesLoop, hb], rfl, by simp⟩
    | number q => right; exact ⟨_, by simp [createSourcesLoop, hb], rfl, by simp⟩
    | array xs => right; exact ⟨_, by simp [createSourcesLoop, hb], rfl, by simp⟩
    | object kvs => right; exact ⟨_, by simp [createSourcesLoop, hb], rfl, by simp⟩

theorem createSourcesLoop_of_tags (l : List (String × PropertyBag)) :
    ∀ (acc : GoMap String Source), (∀ e ∈ l, hasTypeTag SourceCloudflare e.2) →
      createSourcesLoop l acc =
        .ret (some (registryOf (Source.cloudflare CloudflareSource.mk) l acc)) none := by
  induction l with
  | nil => intro acc _; rfl
  | cons e l ih =>
    intro acc h
    obtain ⟨name, bag⟩ := e
    rw [createSourcesLoop_cons_of_tag name bag l acc (h _ (List.mem_cons_self _ _)), registryOf]
    exact ih _ fun x hx => h x (List.mem_cons_of_mem _ hx)

theorem createSourcesLoop_tags_of_ok (l : List (String × PropertyBag)) :
    ∀ (acc r : GoMap String Source) (err : Option String),
      createSourcesLoop l acc = .ret (some r) err → ∀ e ∈ l, hasTypeTag SourceCloudflare e.2 := by
  induction l with
  | nil => intro acc r err _ e he; simp at he
  | cons e l ih =>
    intro acc r err h x hx
    obtain ⟨name, bag⟩ := e
    by_cases htag : hasTypeTag SourceCloudflare bag
    · rw [createSourcesLoop_cons_of_tag name bag l acc htag] at h
      rcases List.mem_cons.1 hx with rfl | hx
      · exact htag
      · exact ih _ _ _ h x hx
    · rcases createSourcesLoop_cons_of_not_tag name bag l acc htag with
        ⟨h', _⟩ | ⟨t, h', _⟩ | ⟨v, h', _⟩ <;> rw [h'] at h <;> simp at h

theorem createSourcesLoop_append_of_tags (pre : List (String × PropertyBag)) :
    ∀ (acc : GoMap String Source) (rest : List (String × PropertyBag)),
      (∀ e ∈ pre, hasTypeTag SourceCloudflare e.2) →
      createSourcesLoop (pre ++ rest) acc =
        createSourcesLoop rest (registryOf (Source.cloudflare CloudflareSource.mk) pre acc) := by
  induction pre with
  | nil => intro acc rest _; rfl
  | cons e l ih =>
    intro acc rest h
    obtain ⟨name, bag⟩ := e
    rw [List.cons_append,
      createSourcesLoop_cons_of_tag name bag _ acc (h _ (List.mem_cons_self _ _)), registryOf]
    exact ih _ _ fun x hx => h x (List.mem_cons_of_mem _ hx)

theorem createFirewallsLoop_cons_of_tag (name : String) (bag : PropertyBag)
    (rest : List (String × PropertyBag)) (acc : GoMap String Firewall)
    (h : hasTypeTag FirewallHetzner bag) :
    createFirewallsLoop ((name, bag) :: rest) acc =
      createFirewallsLoop rest
        (GoMap.set acc (strings.ToLower name) (Firewall.hetzner HetznerFirewall.mk)) := by
  obtain ⟨t, ht, hl⟩ := h
  simp [createFirewallsLoop, ht, hl, hetzner.New]

theorem createFirewallsLoop_cons_of_not_tag (name : String) (bag : PropertyBag)
    (rest : List (String × PropertyBag)) (acc : GoMap String Firewall)
    (h : ¬ hasTypeTag FirewallHetzner bag) :
    (createFirewallsLoop ((name, bag) :: rest) acc =
        .ret none (some ("firewall " ++ strings.ToLower name ++ ": missing type")) ∧
        GoMap.get bag "type" = none) ∨
      (∃ t, createFirewallsLoop ((name, bag) :: rest) acc =
          .ret none (some ("firewall " ++ strings.ToLower name ++ ": unknown type")) ∧
        GoMap.get bag "type" = some (.string t) ∧ strings.ToLower t ≠ FirewallHetzner) ∨
      (∃ v, createFirewallsLoop ((name, bag) :: rest) acc = .panic (assertStringPanic v) ∧
        GoMap.get bag "type" = some v ∧ ∀ t, v ≠ .string t) := by
  cases hb : GoMap.get bag "type" with
  | none => left; simp [createFirewallsLoop, hb]
  | some v =>
    right
    cases v with
    | string t =>
      left
      have hne : strings.ToLower t ≠ FirewallHetzner := fun hl => h ⟨t, hb, hl⟩
      exact ⟨t, by simp [createFirewallsLoop, hb, hne], rfl, hne⟩
    | null => right; exact ⟨_, by simp [createFirewallsLoop, hb], rfl, by simp⟩
    | bool b => right; exact ⟨_, by simp [createFirewallsLoop, hb], rfl, by simp⟩
    | number q => right; exact ⟨_, by simp [createFirewallsLoop, hb], rfl, by simp⟩
    | array xs => right; exact ⟨_, by simp [createFirewallsLoop, hb], rfl, by simp⟩
    | object kvs => right; exact ⟨_, by simp [createFirewallsLoop, hb], rfl, by simp⟩

theorem createFirewallsLoop_of_tags (l : List (String × PropertyBag)) :
    ∀ (acc : GoMap String Firewall), (∀ e ∈ l, hasTypeTag FirewallHetzner e.2) →
      createFirewallsLoop l acc =
        .ret (some (registryOf (Firewall.hetzner HetznerFirewall.mk) l acc)) none := by
  induction l with
  | nil => intro acc _; rfl
  | cons e l ih =>
    intro acc h
    obtain ⟨name, bag⟩ := e
    rw [createFirewallsLoop_cons_of_tag name bag l acc (h _ (List.mem_cons_self _ _)), registryOf]
    exact ih _ fun x hx => h x (List.mem_cons_of_mem _ hx)

theorem createFirewallsLoop_tags_of_ok (l : List (String × PropertyBag)) :
    ∀ (acc r : GoMap String Firewall) (err : Option String),
      createFirewallsLoop l acc = .ret (some r) err → ∀ e ∈ l, hasTypeTag FirewallHetzner e.2 := by
  induction l with
  | nil => intro acc r err _ e he; simp at he
  | cons e l ih =>
    intro acc r err h x hx
    obtain ⟨name, bag⟩ := e
    by_cases htag : hasTypeTag FirewallHetzner bag
    · rw [createFirewallsLoop_cons_of_tag name bag l acc htag] at h
      rcases List.mem_cons.1 hx with rfl | hx
      · exact htag
      · exact ih _ _ _ h x hx
    · rcases createFirewallsLoop_cons_of_not_tag name bag l acc htag with
        ⟨h', _⟩ | ⟨t, h', _⟩ | ⟨v, h', _⟩ <;> rw [h'] at h <;> simp at h

theorem createFirewallsLoop_append_of_tags (pre : List (String × PropertyBag)) :
    ∀ (acc : GoMap String Firewall) (rest : List (String × PropertyBag)),
      (∀ e ∈ pre, hasTypeTag FirewallHetzner e.2) →
      createFirewallsLoop (pre ++ rest) acc =
        createFirewallsLoop rest (registryOf (Firewall.hetzner HetznerFirewall.mk) pre acc) := by
  induction pre with
  | nil => intro acc rest _; rfl
  | cons e l ih =>
    intro acc rest h
    obtain ⟨name, bag⟩ := e
    rw [List.cons_append,
      createFirewallsLoop_cons_of_tag name bag _ acc (h _ (List.mem_cons_self _ _)), registryOf]
    exact ih _ _ fun x hx => h x (List.mem_cons_of_mem _ hx)

theorem createSourcesLoop_cases (l : List (String × PropertyBag)) (acc : GoMap String Source) :
    ((∀ e ∈ l, hasTypeTag SourceCloudflare e.2) ∧
        createSourcesLoop l acc =
          .ret (some (registryOf (Source.cloudflare CloudflareSource.mk) l acc)) none) ∨
      ((¬ ∀ e ∈ l, hasTypeTag SourceCloudflare e.2) ∧
        ((∃ msg, createSourcesLoop l acc = .ret none (some msg)) ∨
          ∃ msg, createSourcesLoop l acc = .panic msg)) := by
  rcases all_or_first_failure (fun e : String × PropertyBag => hasTypeTag SourceCloudflare e.2) l
    with hv | ⟨pre, d, post, hl, hpre, hd⟩
  · exact Or.inl ⟨hv, createSourcesLoop_of_tags l acc hv⟩
  · right
    refine ⟨fun hall => hd (hall d (by simp [hl])), ?_⟩
    obtain ⟨name, bag⟩ := d
    rw [hl, createSourcesLoop_append_of_tags pre acc _ hpre]
    rcases createSourcesLoop_cons_of_not_tag name bag post
        (registryOf (Source.cloudflare CloudflareSource.mk) pre acc) hd with
      ⟨h', _⟩ | ⟨t, h', _⟩ | ⟨v, h', _⟩
    · exact Or.inl ⟨_, h'⟩
    · exact Or.inl ⟨_, h'⟩
    · exact Or.inr ⟨_, h'⟩

/-- A successful source registry is determined, as a map, by the multiset of the
entries with their names lower-cased. -/
theorem createSourcesLoop_congr (l l' : List (String × PropertyBag))
    (h : (l.map normalizeEntry).Perm (l'.map normalizeEntry)) (r : GoMap String Source)
    (hr : createSourcesLoop l [] = .ret (some r) none) :
    ∃ r', createSourcesLoop l' [] = .ret (some r') none ∧
      (∀ k, GoMap.get r' k = GoMap.get r k) ∧ GoMap.len r' = GoMap.len r := by
  have htags := createSourcesLoop_tags_of_ok l [] r none hr
  have hnames : (l.map (fun e => strings.ToLower e.1)).Perm
      (l'.map (fun e => strings.ToLower e.1)) := by
    have := h.map Prod.fst
    simpa [normalizeEntry, Function.comp_def] using this
  have htags' : ∀ e ∈ l', hasTypeTag SourceCloudflare e.2 := by
    intro e he
    have hmem : normalizeEntry e ∈ l.map normalizeEntry :=
      h.mem_iff.2 (List.mem_map.2 ⟨e, he, rfl⟩)
    obtain ⟨x, hx, hxe⟩ := List.mem_map.1 hmem
    have h2 : (normalizeEntry x).2 = (normalizeEntry e).2 := congrArg Prod.snd hxe
    simp only [normalizeEntry] at h2
    exact h2 ▸ htags x hx
  rw [createSourcesLoop_of_tags l [] htags] at hr
  simp only [Outcome.ret.injEq, Option.some.injEq, and_true] at hr
  subst hr
  refine ⟨_, createSourcesLoop_of_tags l' [] htags', ?_, ?_⟩
  · intro k
    rw [get_registryOf, get_registryOf]
    simp only [hnames.mem_iff]
  · rw [len_registryOf, len_registryOf]
    exact (hnames.dedup.length_eq).symm

theorem createFirewallsLoop_cases (l : List (String × PropertyBag)) (acc : GoMap String Firewall) :
    ((∀ e ∈ l, hasTypeTag FirewallHetzner e.2) ∧
        createFirewallsLoop l acc =
          .ret (some (registryOf (Firewall.hetzner HetznerFirewall.mk) l acc)) none) ∨
      ((¬ ∀ e ∈ l, hasTypeTag FirewallHetzner e.2) ∧
        ((∃ msg, createFirewallsLoop l acc = .ret none (some msg)) ∨
          ∃ msg, createFirewallsLoop l acc = .panic msg)) := by
  rcases all_or_first_failure (fun e : String × PropertyBag => hasTypeTag FirewallHetzner e.2) l
    with hv | ⟨pre, d, post, hl, hpre, hd⟩
  · exact Or.inl ⟨hv, createFirewallsLoop_of_tags l acc hv⟩
  · right
    refine ⟨fun hall => hd (hall d (by simp [hl])), ?_⟩
    obtain ⟨name, bag⟩ := d
    rw [hl, createFirewallsLoop_append_of_tags pre acc _ hpre]
    rcases createFirewallsLoop_cons_of_not_tag name bag post
        (registryOf (Firewall.hetzner HetznerFirewall.mk) pre acc) hd with
      ⟨h', _⟩ | ⟨t, h', _⟩ | ⟨v, h', _⟩
    · exact Or.inl ⟨_, h'⟩
    · exact Or.inl ⟨_, h'⟩
    · exact Or.inr ⟨_, h'⟩

/-- A successful firewall registry is determined, as a map, by the multiset of the
entries with their names lower-cased. -/
theorem createFirewallsLoop_congr (l l' : List (String × PropertyBag))
    (h : (l.map normalizeEntry).Perm (l'.map normalizeEntry)) (r : GoMap String Firewall)
    (hr : createFirewallsLoop l [] = .ret (some r) none) :
    ∃ r', createFirewallsLoop l' [] = .ret (some r') none ∧
      (∀ k, GoMap.get r' k = GoMap.get r k) ∧ GoMap.len r' = GoMap.len r := by
  have htags := createFirewallsLoop_tags_of_ok l [] r none hr
  have hnames : (l.map (fun e => strings.ToLower e.1)).Perm
      (l'.map (fun e => strings.ToLower e.1)) := by
    have := h.map Prod.fst
    simpa [normalizeEntry, Function.comp_def] using this
  have htags' : ∀ e ∈ l', hasTypeTag FirewallHetzner e.2 := by
    intro e he
    have hmem : normalizeEntry e ∈ l.map normalizeEntry :=
      h.mem_iff.2 (List.mem_map.2 ⟨e, he, rfl⟩)
    obtain ⟨x, hx, hxe⟩ := List.mem_map.1 hmem
    have h2 : (normalizeEntry x).2 = (normalizeEntry e).2 := congrArg Prod.snd hxe
    simp only [normalizeEntry] at h2
    exact h2 ▸ htags x hx
  rw [createFirewallsLoop_of_tags l [] htags] at hr
  simp only [Outcome.ret.injEq, Option.some.injEq, and_true] at hr
  subst hr
  refine ⟨_, createFirewallsLoop_of_tags l' [] htags', ?_, ?_⟩
  · intro k
    rw [get_registryOf, get_registryOf]
    simp only [hnames.mem_iff]
  · rw [len_registryOf, len_registryOf]
    exact (hnames.dedup.length_eq).symm

/-- The loop treats two lists alike behind a common start when it treats them
alike from every map. -/
theorem createSourcesLoop_append_congr (pre l l' : List (String × PropertyBag))
    (h : ∀ acc, createSourcesLoop l acc = createSourcesLoop l' acc) :
    ∀ acc, createSourcesLoop (pre ++ l) acc = createSourcesLoop (pre ++ l') acc := by
  induction pre with
  | nil => exact h
  | cons e pre ih =>
    intro acc
    obtain ⟨name, bag⟩ := e
    by_cases htag : hasTypeTag SourceCloudflare bag
    · rw [List.cons_append, List.cons_append, createSourcesLoop_cons_of_tag name bag _ acc htag,
        createSourcesLoop_cons_of_tag name bag _ acc htag]
      exact ih _
    · simp only [List.cons_append]
      cases hb : GoMap.get bag "type" with
      | none => simp [createSourcesLoop, hb]
      | some v =>
        cases v with
        | string t =>
          have hne : strings.ToLower t ≠ SourceCloudflare := fun hl => htag ⟨t, hb, hl⟩
          simp [createSourcesLoop, hb, hne]
        | null => simp [createSourcesLoop, hb]
        | bool b => simp [createSourcesLoop, hb]
        | number q => simp [createSourcesLoop, hb]
        | array xs => simp [createSourcesLoop, hb]
        | object kvs => simp [createSourcesLoop, hb]

/-- The loop treats two lists alike behind a common start when it treats them
alike from every map. -/
theorem createFirewallsLoop_append_congr (pre l l' : List (String × PropertyBag))
    (h : ∀ acc, createFirewallsLoop l acc = createFirewallsLoop l' acc) :
    ∀ acc, createFirewallsLoop (pre ++ l) acc = createFirewallsLoop (pre ++ l') acc := by
  induction pre with
  | nil => exact h
  | cons e pre ih =>
    intro acc
    obtain ⟨name, bag⟩ := e
    by_cases htag : hasTypeTag FirewallHetzner bag
    · rw [List.cons_append, List.cons_append, createFirewallsLoop_cons_of_tag name bag _ acc htag,
        createFirewallsLoop_cons_of_tag name bag _ acc htag]
      exact ih _
    · simp only [List.cons_append]
      cases hb : GoMap.get bag "type" with
      | none => simp [createFirewallsLoop, hb]
      | some v =>
        cases v with
        | string t =>
          have hne : strings.ToLower t ≠ FirewallHetzner := fun hl => htag ⟨t, hb, hl⟩
          simp [createFirewallsLoop, hb, hne]
        | null => simp [createFirewallsLoop, hb]
        | bool b => simp [createFirewallsLoop, hb]
        | number q => simp [createFirewallsLoop, hb]
        | array xs => simp [createFirewallsLoop, hb]
        | object kvs => simp [createFirewallsLoop, hb]

/-- The tags on which the two registries dispatch: for a single entry whose
`type` is the string `t`, the source registry returns its unknown-type error
exactly when `t` does not lower-case to `cloudflare`, and the firewall registry
exactly when `t` does not lower-case to `hetzner`; otherwise each returns the
registry with that one entry. -/
theorem unknown_type_iff_not_dispatched (name t : String) (bag : PropertyBag)
    (other : List (String × PropertyBag))
    (h : GoMap.get bag "type" = some (.string t)) :
    (createSourcesFromConfiguration { Sources := [(name, bag)], Destinations := other } =
          .ret none (some ("source " ++ t ++ ": unknown type")) ↔
        strings.ToLower t ≠ SourceCloudflare) ∧
      (strings.ToLower t = SourceCloudflare →
        createSourcesFromConfiguration { Sources := [(name, bag)], Destinations := other } =
          .ret (some [(strings.ToLower name, cloudflareSource)]) none) ∧
      (createFirewallsFromConfiguration { Sources := other, Destinations := [(name, bag)] } =
          .ret none (some ("firewall " ++ strings.ToLower name ++ ": unknown type")) ↔
        strings.ToLower t ≠ FirewallHetzner) ∧
      (strings.ToLower t = FirewallHetzner →
        createFirewallsFromConfiguration { Sources := other, Destinations := [(name, bag)] } =
          .ret (some [(strings.ToLower name, hetznerFirewall)]) none) := by
  have hs : strings.ToLower t = SourceCloudflare →
      createSourcesFromConfiguration { Sources := [(name, bag)], Destinations := other } =
        .ret (some [(strings.ToLower name, cloudflareSource)]) none := by
    intro hl
    simp [createSourcesFromConfiguration, createSourcesLoop, h, hl, cloudflare.New, GoMap.set,
      cloudflareSource]
  have hf : strings.ToLower t = FirewallHetzner →
      createFirewallsFromConfiguration { Sources := other, Destinations := [(name, bag)] } =
        .ret (some [(strings.ToLower name, hetznerFirewall)]) none := by
    intro hl
    simp [createFirewallsFromConfiguration, createFirewallsLoop, h, hl, hetzner.New, GoMap.set,
      hetznerFirewall]
  refine ⟨⟨?_, ?_⟩, hs, ⟨?_, ?_⟩, hf⟩
  · intro he hl
    rw [hs hl] at he
    simp at he
  · intro hl
    simp [createSourcesFromConfiguration, createSourcesLoop, h, hl]
  · intro he hl
    rw [hf hl] at he
    simp at he
  · intro hl
    simp [createFirewallsFromConfiguration, createFirewallsLoop, h, hl]

end Registries

/-! ## Lemmas on the pipeline -/

section Pipeline

theorem matchAction_congr {a a' : String} (h : strings.ToLower a' = strings.ToLower a) :
    matchAction a' = matchAction a := by
  simp [matchAction, h]

/-- A successful run of the rule compiler depends on the registries through
their lookups only, and on the names and actions of the declarations through
their lower-cased forms only. -/
theorem createRulesLoop_congr {σ φ : Type} [DecidableEq φ] (sources sources' : GoMap String σ)
    (firewalls firewalls' : GoMap String φ)
    (hS : ∀ k, GoMap.get sources' k = GoMap.get sources k)
    (hF : ∀ k, GoMap.get firewalls' k = GoMap.get firewalls k)
    {ds ds' : List jsonRule} (hr : List.Forall₂ sameRuleUpToCase ds ds') :
    ∀ (i : Nat) (rules m : GoMap (namedFirewall φ) (List (Rule σ))),
      createRulesLoop sources firewalls i ds rules = .ret (some m) none →
      createRulesLoop sources' firewalls' i ds' rules = .ret (some m) none := by
  induction hr with
  | nil => intro i rules m h; exact h
  | @cons d d' rest rest' hd _ ih =>
    intro i rules m h
    obtain ⟨h₁, h₂, h₃, h₄, h₅, h₆, h₇⟩ := hd
    cases hF0 : GoMap.get firewalls (strings.ToLower d.Destination) with
    | none =>
      rw [createRulesLoop_cons_noDestination _ _ _ _ _ _ hF0] at h
      simp at h
    | some fw =>
      cases hS0 : GoMap.get sources (strings.ToLower d.Source) with
      | none =>
        rw [createRulesLoop_cons_noSource _ _ _ _ _ _ hF0 hS0] at h
        simp at h
      | some src =>
        cases hA0 : matchAction d.Action with
        | none =>
          rw [createRulesLoop_cons_badAction _ _ _ _ _ _ hF0 hS0 hA0] at h
          simp at h
        | some a =>
          rw [createRulesLoop_cons_valid _ _ _ _ _ _ hF0 hS0 hA0] at h
          have hF1 : GoMap.get firewalls' (strings.ToLower d'.Destination) = some fw := by
            rw [hF, h₁, hF0]
          have hS1 : GoMap.get sources' (strings.ToLower d'.Source) = some src := by
            rw [hS, h₂, hS0]
          have hA1 : matchAction d'.Action = some a := by
            rw [matchAction_congr h₃, hA0]
          rw [createRulesLoop_cons_valid _ _ _ _ _ _ hF1 hS1 hA1, h₁, h₄, h₅, h₆, h₇]
          exact ih _ _ _ h

/-- A rule set comes out of the pipeline only through both registries and the
rule compiler. -/
theorem parseRuleSet_ok (doc : jsonRuleSet)
    (m : GoMap (namedFirewall Firewall) (List (Rule Source)))
    (h : parseRuleSet doc = .ret (some m) none) :
    ∃ sources firewalls,
      createSourcesFromConfiguration doc.Configuration = .ret (some sources) none ∧
      createFirewallsFromConfiguration doc.Configuration = .ret (some firewalls) none ∧
      createRulesFromConfiguration sources firewalls doc.Rules = .ret (some m) none := by
  unfold parseRuleSet at h
  rcases createSourcesLoop_cases doc.Configuration.Sources [] with
    ⟨_, hs⟩ | ⟨_, ⟨msg, hs⟩ | ⟨msg, hs⟩⟩
  · rcases createFirewallsLoop_cases doc.Configuration.Destinations [] with
      ⟨_, hf⟩ | ⟨_, ⟨msg, hf⟩ | ⟨msg, hf⟩⟩
    · refine ⟨_, _, hs, hf, ?_⟩
      simpa [createSourcesFromConfiguration, createFirewallsFromConfiguration, hs, hf] using h
    · simp [createSourcesFromConfiguration, createFirewallsFromConfiguration, hs, hf] at h
    · simp [createSourcesFromConfiguration, createFirewallsFromConfiguration, hs, hf] at h
  · simp [createSourcesFromConfiguration, hs] at h
  · simp [createSourcesFromConfiguration, hs] at h

theorem parseRuleSet_of_registries (doc : jsonRuleSet) (sources : GoMap String Source)
    (firewalls : GoMap String Firewall)
    (hs : createSourcesFromConfiguration doc.Configuration = .ret (some sources) none)
    (hf : createFirewallsFromConfiguration doc.Configuration = .ret (some firewalls) none) :
    parseRuleSet doc = createRulesFromConfiguration sources firewalls doc.Rules := by
  simp [parseRuleSet, hs, hf]

end Pipeline

/-! ## Further lemmas on the rule compiler -/

section RuleCompilerResults

/-- A list splits at any of its indices. -/
theorem split_at_index {α : Type} (l : List α) :
    ∀ (i : Nat) (d : α), l[i]? = some d →
      ∃ pre post, l = pre ++ d :: post ∧ pre.length = i ∧
        ∀ x ∈ pre, ∃ j, j < i ∧ l[j]? = some x := by
  induction l with
  | nil => intro i d h; simp at h
  | cons a l ih =>
    intro i d h
    cases i with
    | zero =>
      simp only [List.getElem?_cons_zero, Option.some.injEq] at h
      subst h
      exact ⟨[], l, rfl, rfl, by simp⟩
    | succ k =>
      simp only [List.getElem?_cons_succ] at h
      obtain ⟨pre, post, hl, hlen, hpre⟩ := ih k d h
      refine ⟨a :: pre, post, by rw [hl]; rfl, by simp [hlen], ?_⟩
      intro x hx
      rcases List.mem_cons.1 hx with rfl | hx
      · exact ⟨0, Nat.succ_pos k, by simp⟩
      · obtain ⟨j, hj, hjx⟩ := hpre x hx
        exact ⟨j + 1, Nat.succ_lt_succ hj, by simpa using hjx⟩

/-- A key of a successful result is the key of some declaration, and its list
is not empty. -/
theorem createRules_key_of_decl {σ φ : Type} [DecidableEq φ] (sources : GoMap String σ)
    (firewalls : GoMap String φ) (ds : List jsonRule)
    (m : GoMap (namedFirewall φ) (List (Rule σ)))
    (h : createRulesFromConfiguration sources firewalls ds = .ret (some m) none)
    (key : namedFirewall φ) (rl : List (Rule σ)) (hk : GoMap.get m key = some rl) :
    rl = (ds.filter fun d => keyOf firewalls d = some key).filterMap (ruleOf sources) ∧
      ∃ d ∈ ds, keyOf firewalls d = some key := by
  rw [createRules_get sources firewalls ds m h key] at hk
  split at hk
  · simp at hk
  · rename_i hne
    simp only [Option.some.injEq] at hk
    refine ⟨hk.symm, ?_⟩
    cases hfl : ds.filter (fun d => keyOf firewalls d = some key) with
    | nil => simp [hfl] at hne
    | cons x xs =>
      have hx : x ∈ ds.filter (fun d => keyOf firewalls d = some key) := by
        rw [hfl]; exact List.mem_cons_self _ _
      have hxk := (List.mem_filter.1 hx).2
      simp only [decide_eq_true_eq] at hxk
      exact ⟨x, (List.mem_filter.1 hx).1, hxk⟩

theorem nodup_keys_stepRules {σ φ : Type} [DecidableEq φ]
    (rules : GoMap (namedFirewall φ) (List (Rule σ))) (nf : namedFirewall φ) (rule : Rule σ)
    (h : (GoMap.keys rules).Nodup) : (GoMap.keys (stepRules rules nf rule)).Nodup := by
  unfold stepRules
  apply GoMap.nodup_keys_set
  split
  · exact GoMap.nodup_keys_set _ _ _ h
  · exact h

theorem createRulesLoop_nodup_keys {σ φ : Type} [DecidableEq φ] (sources : GoMap String σ)
    (firewalls : GoMap String φ) (ds : List jsonRule) :
    ∀ (i : Nat) (rules m : GoMap (namedFirewall φ) (List (Rule σ))),
      (GoMap.keys rules).Nodup →
      createRulesLoop sources firewalls i ds rules = .ret (some m) none →
      (GoMap.keys m).Nodup := by
  induction ds with
  | nil =>
    intro i rules m hn h
    simp only [createRulesLoop, Outcome.ret.injEq, Option.some.injEq, and_true] at h
    exact h ▸ hn
  | cons d rest ih =>
    intro i rules m hn h
    rcases createRulesLoop_cons sources firewalls i d rest rules with
      ⟨_, nf, rule, _, _, hstep⟩ | ⟨_, herr⟩
    · rw [hstep] at h
      exact ih _ _ _ (nodup_keys_stepRules rules nf rule hn) h
    · rw [herr] at h
      simp at h

/-- The entry of a key in a successful result: the firewall of the key is the
one registered under its name, and the list holds, in declaration order, the
rules of the declarations whose lower-cased destination is that name. -/
theorem createRules_entry {σ φ : Type} [DecidableEq φ] (sources : GoMap String σ)
    (firewalls : GoMap String φ) (ds : List jsonRule)
    (m : GoMap (namedFirewall φ) (List (Rule σ)))
    (h : createRulesFromConfiguration sources firewalls ds = .ret (some m) none)
    (key : namedFirewall φ) (rl : List (Rule σ)) (hk : GoMap.get m key = some rl) :
    GoMap.get firewalls key.Name = some key.Firewall ∧
      rl.map some =
        (ds.filter fun d => strings.ToLower d.Destination = key.Name).map (ruleOf sources) := by
  have hv := createRulesLoop_valid_of_ok sources firewalls ds 0 [] m none h
  obtain ⟨hrl, d, _, hkd⟩ := createRules_key_of_decl sources firewalls ds m h key rl hk
  obtain ⟨name, fw⟩ := key
  have hF : GoMap.get firewalls name = some fw :=
    ((keyOf_eq_some_iff firewalls d name fw).1 hkd).2
  refine ⟨hF, ?_⟩
  have hfilter : (ds.filter fun d => keyOf firewalls d = some { Name := name, Firewall := fw }) =
      ds.filter fun d => strings.ToLower d.Destination = name := by
    apply List.filter_congr
    intro x _
    simp [keyOf_eq_some_iff, hF]
  rw [hrl, hfilter]
  apply filterMap_map_some
  intro x hx
  exact ruleOf_isSome_of_valid sources firewalls x (hv x (List.mem_of_mem_filter hx))

/-- The source of the rule of a valid declaration is the value registered under
its lower-cased source name. -/
theorem ruleOf_source {σ φ : Type} (sources : GoMap String σ) (firewalls : GoMap String φ)
    (d : jsonRule) (h : ruleValid sources firewalls d) :
    (ruleOf sources d).map (fun r => r.Source) =
      GoMap.get sources (strings.ToLower d.Source) := by
  obtain ⟨src, hs⟩ := (GoMap.mem_keys_iff _ _).1 h.2.1
  obtain ⟨a, ha⟩ := (matchAction_eq_some_iff _).2 h.2.2
  have ha' : actionOf d.Action = some a := by
    rw [← matchAction_eq_actionOf]; exact ha
  simp [ruleOf, hs, ha']

end RuleCompilerResults

/-! ## The claims -/

/-- C1: in a successful result of `createRulesFromConfiguration`, a key
`(name, fw)` has `fw` registered under `name` in the firewall registry, and its
rule list is, in declaration order, the list of the rules of exactly the
declarations whose lower-cased destination is `name`; the rule of a declaration
has as action the enumeration value named by its lower-cased action (allow for
`allow`, deny for `deny`), the source registered under the lower-cased source
name and the port and interface fields of the declaration unchanged. -/
theorem createRules_groups_in_declaration_order {σ φ : Type} [DecidableEq φ]
    (sources : GoMap String σ) (firewalls : GoMap String φ) (ds : List jsonRule)
    (m : GoMap (namedFirewall φ) (List (Rule σ)))
    (h : createRulesFromConfiguration sources firewalls ds = .ret (some m) none)
    (name : String) (fw : φ) (rl : List (Rule σ))
    (hkey : GoMap.get m { Name := name, Firewall := fw } = some rl) :
    GoMap.get firewalls name = some fw ∧
      rl.map some =
        (ds.filter fun d => strings.ToLower d.Destination = name).map (ruleOf sources) := by
  have hv := createRulesLoop_valid_of_ok sources firewalls ds 0 [] m none h
  rw [createRules_get sources firewalls ds m h] at hkey
  split at hkey
  · simp at hkey
  · rename_i hne
    simp only [Option.some.injEq] at hkey
    have hF : GoMap.get firewalls name = some fw := by
      cases hfl : ds.filter (fun d => keyOf firewalls d = some { Name := name, Firewall := fw }) with
      | nil => simp [hfl] at hne
      | cons x xs =>
        have hx : x ∈ ds.filter
            (fun d => keyOf firewalls d = some { Name := name, Firewall := fw }) := by
          rw [hfl]; exact List.mem_cons_self _ _
        have := (List.mem_filter.1 hx).2
        simp only [decide_eq_true_eq] at this
        exact ((keyOf_eq_some_iff firewalls x name fw).1 this).2
    refine ⟨hF, ?_⟩
    have hfilter : (ds.filter fun d => keyOf firewalls d = some { Name := name, Firewall := fw }) =
        ds.filter fun d => strings.ToLower d.Destination = name := by
      apply List.filter_congr
      intro x _
      simp [keyOf_eq_some_iff, hF]
    rw [← hkey, hfilter]
    apply filterMap_map_some
    intro x hx
    exact ruleOf_isSome_of_valid sources firewalls x (hv x (List.mem_of_mem_filter hx))

/-- C1, at an input: the declarations at indices 2, 5 and 7 of `exampleRules`
name `hetzner`, and their rules are the list stored under that name. -/
theorem createRules_groups_in_declaration_order_witness :
    createRulesFromConfiguration exampleSources exampleFirewalls exampleRules =
        .ret (some exampleCompiled) none ∧
      GoMap.get exampleCompiled { Name := "hetzner", Firewall := hetznerFirewall } =
        some [exampleRule "allow" 3, exampleRule "deny" 6, exampleRule "allow" 8] ∧
      GoMap.get exampleFirewalls "hetzner" = some hetznerFirewall ∧
      [exampleRule "allow" 3, exampleRule "deny" 6, exampleRule "allow" 8].map some =
        (exampleRules.filter fun d => strings.ToLower d.Destination = "hetzner").map
          (ruleOf exampleSources) :=
  ⟨by decide, by decide,
    createRules_groups_in_declaration_order exampleSources exampleFirewalls exampleRules
      exampleCompiled (by decide) "hetzner" hetznerFirewall _ (by decide)⟩

/-- C2: `createRulesFromConfiguration` returns an error exactly when some
declaration has a lower-cased destination that is no key of the firewall
registry, a lower-cased source that is no key of the source registry, or a
lower-cased action other than allow and deny; a returned error comes with a nil
rule map; and the error returned does not depend on the port, ports, port range
and interfaces of the declarations. -/
theorem createRules_error_iff {σ φ : Type} [DecidableEq φ]
    (sources : GoMap String σ) (firewalls : GoMap String φ) (ds : List jsonRule) :
    ((∃ v e, createRulesFromConfiguration sources firewalls ds = .ret v (some e)) ↔
        ∃ d ∈ ds, strings.ToLower d.Destination ∉ GoMap.keys firewalls ∨
          strings.ToLower d.Source ∉ GoMap.keys sources ∨
          ¬ (strings.ToLower d.Action = "allow" ∨ strings.ToLower d.Action = "deny")) ∧
      (∀ v e, createRulesFromConfiguration sources firewalls ds = .ret v (some e) → v = none) ∧
      (∀ ds' : List jsonRule,
        ds'.map (fun d => (d.Destination, d.Source, d.Action)) =
          ds.map (fun d => (d.Destination, d.Source, d.Action)) →
        (createRulesFromConfiguration sources firewalls ds').error =
          (createRulesFromConfiguration sources firewalls ds).error) := by
  have hcases := all_or_first_failure (ruleValid sources firewalls) ds
  refine ⟨⟨?_, ?_⟩, ?_, ?_⟩
  · rintro ⟨v, e, h⟩
    rcases hcases with hv | ⟨pre, d, post, hl, _, hd⟩
    · obtain ⟨m, hm⟩ := createRulesLoop_ok sources firewalls ds 0 [] hv
      rw [createRulesFromConfiguration, hm] at h
      simp at h
    · refine ⟨d, by simp [hl], ?_⟩
      by_contra hcon
      exact hd ⟨by_contra fun h₁ => hcon (Or.inl h₁),
        by_contra fun h₂ => hcon (Or.inr (Or.inl h₂)),
        by_contra fun h₃ => hcon (Or.inr (Or.inr h₃))⟩
  · rintro ⟨d, hd, hbad⟩
    rcases hcases with hv | ⟨pre, d', post, hl, hpre, hd'⟩
    · have := hv d hd
      rcases hbad with hb | hb | hb
      · exact absurd this.1 hb
      · exact absurd this.2.1 hb
      · exact absurd this.2.2 hb
    · exact ⟨none, _, by
        rw [createRulesFromConfiguration, hl]
        exact createRulesLoop_err sources firewalls pre d' post 0 [] hpre hd'⟩
  · intro v e h
    rcases hcases with hv | ⟨pre, d, post, hl, hpre, hd⟩
    · obtain ⟨m, hm⟩ := createRulesLoop_ok sources firewalls ds 0 [] hv
      rw [createRulesFromConfiguration, hm] at h
      simp at h
    · rw [createRulesFromConfiguration, hl,
        createRulesLoop_err sources firewalls pre d post 0 [] hpre hd] at h
      simp only [Outcome.ret.injEq] at h
      exact h.1.symm
  · intro ds' h
    exact createRulesLoop_error_congr sources firewalls ds ds' 0 [] [] h

/-- C2, at an input: `invalidRules` has a declaration with an unknown
destination, so the rule compiler returns an error. -/
theorem createRules_error_iff_witness :
    (∃ d ∈ invalidRules, strings.ToLower d.Destination ∉ GoMap.keys exampleFirewalls ∨
        strings.ToLower d.Source ∉ GoMap.keys exampleSources ∨
        ¬ (strings.ToLower d.Action = "allow" ∨ strings.ToLower d.Action = "deny")) ∧
      ∃ v e, createRulesFromConfiguration exampleSources exampleFirewalls invalidRules =
        .ret v (some e) := by
  have hex : ∃ d ∈ invalidRules, strings.ToLower d.Destination ∉ GoMap.keys exampleFirewalls ∨
      strings.ToLower d.Source ∉ GoMap.keys exampleSources ∨
      ¬ (strings.ToLower d.Action = "allow" ∨ strings.ToLower d.Action = "deny") :=
    ⟨decl "allow" "nowhere" "Unknown" 2, by decide, Or.inl (by decide)⟩
  exact ⟨hex, (createRules_error_iff exampleSources exampleFirewalls invalidRules).1.2 hex⟩

/-- C3: when `createRulesFromConfiguration` fails, there is an index `i` whose
declaration is invalid while every declaration before it is valid, and the
error is the text for that index: destination not configured when the
destination is unresolved, otherwise source not configured when the source is
unresolved, otherwise action invalid with the action as declared. -/
theorem createRules_reports_first_invalid {σ φ : Type} [DecidableEq φ]
    (sources : GoMap String σ) (firewalls : GoMap String φ) (ds : List jsonRule)
    (v : Option (GoMap (namedFirewall φ) (List (Rule σ)))) (e : String)
    (h : createRulesFromConfiguration sources firewalls ds = .ret v (some e)) :
    ∃ i d, ds[i]? = some d ∧
      (∀ j d', j < i → ds[j]? = some d' → ruleValid sources firewalls d') ∧
      ¬ ruleValid sources firewalls d ∧
      e = ruleErrorText sources firewalls i d := by
  rcases all_or_first_failure (ruleValid sources firewalls) ds with hv | ⟨pre, d, post, hl, hpre, hd⟩
  · obtain ⟨m, hm⟩ := createRulesLoop_ok sources firewalls ds 0 [] hv
    rw [createRulesFromConfiguration, hm] at h
    simp at h
  · rw [createRulesFromConfiguration, hl,
      createRulesLoop_err sources firewalls pre d post 0 [] hpre hd] at h
    simp only [Outcome.ret.injEq, Option.some.injEq, Nat.zero_add] at h
    refine ⟨pre.length, d, ?_, ?_, hd, h.2.symm⟩
    · rw [hl, List.getElem?_append_right (le_refl _)]
      simp
    · intro j d' hj hjd
      rw [hl, List.getElem?_append_left hj] at hjd
      exact hpre d' (List.getElem?_mem hjd)

/-- C3, at an input: on `invalidRules` the error is the destination error of
index 1, although the source of that declaration is unknown too and the
declaration at index 2 is invalid as well. -/
theorem createRules_reports_first_invalid_witness :
    createRulesFromConfiguration exampleSources exampleFirewalls invalidRules =
        .ret none (some "rule index 1: destination not configured") ∧
      ∃ i d, invalidRules[i]? = some d ∧
        (∀ j d', j < i → invalidRules[j]? = some d' →
          ruleValid exampleSources exampleFirewalls d') ∧
        ¬ ruleValid exampleSources exampleFirewalls d ∧
        "rule index 1: destination not configured" =
          ruleErrorText exampleSources exampleFirewalls i d :=
  ⟨by decide,
    createRules_reports_first_invalid exampleSources exampleFirewalls invalidRules none
      "rule index 1: destination not configured" (by decide)⟩

/-- C4, as the code has it: when every source entry has a type that lower-cases
to `cloudflare`, `createSourcesFromConfiguration` succeeds; the keys of the
registry are exactly the lower-cased names, so its size is the number of
distinct lower-cased names, which is the number of entries when no two names
agree after lower-casing. -/
theorem createSources_registry_of_recognized (c : jsonConfiguration)
    (h : ∀ e ∈ c.Sources, hasTypeTag SourceCloudflare e.2) :
    ∃ r, createSourcesFromConfiguration c = .ret (some r) none ∧
      (∀ k, k ∈ GoMap.keys r ↔ k ∈ c.Sources.map (fun e => strings.ToLower e.1)) ∧
      (GoMap.keys r).Nodup ∧
      GoMap.len r = (c.Sources.map (fun e => strings.ToLower e.1)).dedup.length ∧
      ((c.Sources.map (fun e => strings.ToLower e.1)).Nodup →
        GoMap.len r = c.Sources.length) := by
  refine ⟨_, createSourcesLoop_of_tags c.Sources [] h, ?_, ?_, ?_, ?_⟩
  · intro k
    rw [mem_keys_registryOf]
    simp [GoMap.keys]
  · exact nodup_keys_registryOf _ _ _ (by simp [GoMap.keys])
  · exact len_registryOf _ _
  · intro hnd
    rw [len_registryOf, hnd.dedup, List.length_map]

/-- C4, at an input: the two entries `CAF\u00C9` and `edge` of `twoSources`
give a registry of size two, with the keys `caf\u00E9` and `edge`. -/
theorem createSources_registry_of_recognized_witness :
    (∀ e ∈ twoSources.Sources, hasTypeTag SourceCloudflare e.2) ∧
      createSourcesFromConfiguration twoSources =
        .ret (some [("caf\u00E9", cloudflareSource), ("edge", cloudflareSource)]) none ∧
      ∃ r, createSourcesFromConfiguration twoSources = .ret (some r) none ∧
        (∀ k, k ∈ GoMap.keys r ↔ k ∈ twoSources.Sources.map (fun e => strings.ToLower e.1)) ∧
        (GoMap.keys r).Nodup ∧
        GoMap.len r = (twoSources.Sources.map (fun e => strings.ToLower e.1)).dedup.length ∧
        ((twoSources.Sources.map (fun e => strings.ToLower e.1)).Nodup →
          GoMap.len r = twoSources.Sources.length) := by
  have h : ∀ e ∈ twoSources.Sources, hasTypeTag SourceCloudflare e.2 := by
    intro e he
    simp only [twoSources, List.mem_cons, List.mem_singleton, List.not_mem_nil, or_false] at he
    rcases he with rfl | rfl
    · exact ⟨"Cloudflare", rfl, by decide⟩
    · exact ⟨"cloudflare", rfl, by decide⟩
  exact ⟨h, by decide, createSources_registry_of_recognized twoSources h⟩

/-- C4 as stated fails: the two entries `A` and `a` of `collidingSources` both
have type `cloudflare` and distinct names, and the registry has one entry; so
it is for the Kelvin sign and `k` in `kelvinSources`. -/
theorem createSources_count_counterexample :
    (collidingSources.Sources.map Prod.fst).Nodup ∧
      (∀ e ∈ collidingSources.Sources, hasTypeTag SourceCloudflare e.2) ∧
      createSourcesFromConfiguration collidingSources =
        .ret (some [("a", cloudflareSource)]) none ∧
      GoMap.len [("a", cloudflareSource)] ≠ collidingSources.Sources.length ∧
      (kelvinSources.Sources.map Prod.fst).Nodup ∧
      createSourcesFromConfiguration kelvinSources =
        .ret (some [("k", cloudflareSource)]) none := by
  refine ⟨by decide, ?_, by decide, by decide, by decide, by decide⟩
  intro e he
  simp only [collidingSources, List.mem_cons, List.mem_singleton, List.not_mem_nil,
    or_false] at he
  rcases he with rfl | rfl <;> exact ⟨"cloudflare", rfl, by decide⟩

/-- C5, on the code: `ufw` is a declared `FirewallType`, a member of the
enumeration whatever its letter case, and a destination entry of type `ufw` or
`UFW` gets the unknown-type error of the firewall registry, while an entry of
the sibling type `hetzner` is built. -/
theorem ufw_declared_but_not_dispatched :
    strings.ToLower "ufw" = FirewallUfw ∧ strings.ToLower "UFW" = FirewallUfw ∧
      createFirewallsFromConfiguration ufwDestination =
        .ret none (some "firewall fw: unknown type") ∧
      createFirewallsFromConfiguration
          { Sources := [], Destinations := [("fw", typedBag "UFW")] } =
        .ret none (some "firewall fw: unknown type") ∧
      createFirewallsFromConfiguration
          { Sources := [], Destinations := [("fw", typedBag "hetzner")] } =
        .ret (some [("fw", hetznerFirewall)]) none := by
  decide

/-- C6, as the code has it: when an entry of the sources (of the destinations)
has no `type`, `createSourcesFromConfiguration`
(`createFirewallsFromConfiguration`) returns no registry, and when every entry
visited before it has a dispatched type the result is the missing-type error
with the lower-cased name of that entry. -/
theorem missing_type_never_succeeds (c : jsonConfiguration) (name : String)
    (bag : PropertyBag) (hbag : GoMap.get bag "type" = none) :
    ((name, bag) ∈ c.Sources →
        ∀ r err, createSourcesFromConfiguration c ≠ .ret (some r) err) ∧
      (∀ pre post, c.Sources = pre ++ (name, bag) :: post →
        (∀ e ∈ pre, hasTypeTag SourceCloudflare e.2) →
        createSourcesFromConfiguration c =
          .ret none (some ("source " ++ strings.ToLower name ++ ": missing type"))) ∧
      ((name, bag) ∈ c.Destinations →
        ∀ r err, createFirewallsFromConfiguration c ≠ .ret (some r) err) ∧
      (∀ pre post, c.Destinations = pre ++ (name, bag) :: post →
        (∀ e ∈ pre, hasTypeTag FirewallHetzner e.2) →
        createFirewallsFromConfiguration c =
          .ret none (some ("firewall " ++ strings.ToLower name ++ ": missing type"))) := by
  have hnot : ∀ tag, ¬ hasTypeTag tag bag := by
    rintro tag ⟨t, ht, _⟩
    rw [hbag] at ht
    simp at ht
  refine ⟨?_, ?_, ?_, ?_⟩
  · intro hmem r err hr
    exact hnot _ (createSourcesLoop_tags_of_ok c.Sources [] r err hr (name, bag) hmem)
  · intro pre post hl hpre
    rw [createSourcesFromConfiguration, hl, createSourcesLoop_append_of_tags pre [] _ hpre]
    simp [createSourcesLoop, hbag]
  · intro hmem r err hr
    exact hnot _ (createFirewallsLoop_tags_of_ok c.Destinations [] r err hr (name, bag) hmem)
  · intro pre post hl hpre
    rw [createFirewallsFromConfiguration, hl, createFirewallsLoop_append_of_tags pre [] _ hpre]
    simp [createFirewallsLoop, hbag]

/-- C6, at an input: in `validThenMissing` the entry `CAF\u00C9` has no `type` and
follows a valid entry; both registries report it under the name `broken`. -/
theorem missing_type_never_succeeds_witness :
    GoMap.get ([] : PropertyBag) "type" = none ∧
      createFirewallsFromConfiguration validThenMissing =
        .ret none (some ("firewall " ++ strings.ToLower "CAF\u00C9" ++ ": missing type")) ∧
      strings.ToLower "CAF\u00C9" = "caf\u00E9" ∧
      ∀ r err, createFirewallsFromConfiguration validThenMissing ≠ .ret (some r) err :=
  ⟨rfl,
    (missing_type_never_succeeds validThenMissing "CAF\u00C9" [] rfl).2.2.2
      [("ok", typedBag "hetzner")] [] rfl
      (by
        intro e he
        simp only [List.mem_singleton] at he
        subst he
        exact ⟨"hetzner", rfl, by decide⟩),
    by decide,
    (missing_type_never_succeeds validThenMissing "CAF\u00C9" [] rfl).2.2.1
      (by simp [validThenMissing])⟩

/-- C6 as stated fails: in `unknownThenMissing` the entry `b` has no `type`, and
the error of both registries is the unknown-type error of the entry visited
before it. -/
theorem missing_type_error_counterexample :
    GoMap.get ([] : PropertyBag) "type" = none ∧
      createSourcesFromConfiguration unknownThenMissing =
        .ret none (some "source unknown: unknown type") ∧
      createSourcesFromConfiguration unknownThenMissing ≠
        .ret none (some "source b: missing type") ∧
      createFirewallsFromConfiguration unknownThenMissing =
        .ret none (some "firewall a: unknown type") ∧
      createFirewallsFromConfiguration unknownThenMissing ≠
        .ret none (some "firewall b: missing type") :=
  ⟨rfl, by decide, by decide, by decide, by decide⟩

/-- C7, on the code: a `type` that is the number 5 makes both registry builders
panic in the type assertion instead of returning an error. -/
theorem registries_panic_on_non_string_type :
    createSourcesFromConfiguration numericType =
        .panic "interface conversion: interface {} is float64, not string" ∧
      createFirewallsFromConfiguration numericType =
        .panic "interface conversion: interface {} is float64, not string" := by
  decide

/-- C8: when a document compiles, every document obtained from it by changing
only the letter case of rule destinations, sources and actions and of the names
of the configured sources and destinations (whatever the order in which the
configuration maps are visited) compiles to the same rule set. -/
theorem parseRuleSet_case_insensitive (doc doc' : jsonRuleSet)
    (hs : (doc.Configuration.Sources.map normalizeEntry).Perm
      (doc'.Configuration.Sources.map normalizeEntry))
    (hd : (doc.Configuration.Destinations.map normalizeEntry).Perm
      (doc'.Configuration.Destinations.map normalizeEntry))
    (hr : List.Forall₂ sameRuleUpToCase doc.Rules doc'.Rules)
    (m : GoMap (namedFirewall Firewall) (List (Rule Source)))
    (hok : parseRuleSet doc = .ret (some m) none) :
    parseRuleSet doc' = .ret (some m) none := by
  obtain ⟨sources, firewalls, h₁, h₂, h₃⟩ := parseRuleSet_ok doc m hok
  obtain ⟨sources', h₁', hS, _⟩ := createSourcesLoop_congr _ _ hs sources h₁
  obtain ⟨firewalls', h₂', hF, _⟩ := createFirewallsLoop_congr _ _ hd firewalls h₂
  rw [parseRuleSet_of_registries doc' sources' firewalls' h₁' h₂']
  exact createRulesLoop_congr sources sources' firewalls firewalls' hS hF hr 0 [] m h₃

/-- C8, at an input: `mixedCaseDocument` compiles to the rule set of
`lowerCaseDocument`, with the keys `hetzner` and `backup`. -/
theorem parseRuleSet_case_insensitive_witness :
    parseRuleSet lowerCaseDocument = .ret (some lowerCaseCompiled) none ∧
      parseRuleSet mixedCaseDocument = .ret (some lowerCaseCompiled) none :=
  ⟨by decide,
    parseRuleSet_case_insensitive lowerCaseDocument mixedCaseDocument
      (List.Perm.refl _) (List.Perm.swap _ _ _)
      (List.Forall₂.cons (by unfold sameRuleUpToCase; decide)
        (List.Forall₂.cons (by unfold sameRuleUpToCase; decide)
          (List.Forall₂.cons (by unfold sameRuleUpToCase; decide) List.Forall₂.nil)))
      lowerCaseCompiled (by decide)⟩

/-- C9, as the code has it: when `createSourcesFromConfiguration`
(`createFirewallsFromConfiguration`) succeeds for one order of visiting the
entries, it succeeds for every other order, and the two registries have the
same value under every key and the same size. -/
theorem registries_order_independent_on_success (c c' : jsonConfiguration)
    (hs : c.Sources.Perm c'.Sources) (hd : c.Destinations.Perm c'.Destinations) :
    (∀ r, createSourcesFromConfiguration c = .ret (some r) none →
        ∃ r', createSourcesFromConfiguration c' = .ret (some r') none ∧
          (∀ k, GoMap.get r' k = GoMap.get r k) ∧ GoMap.len r' = GoMap.len r) ∧
      (∀ r, createFirewallsFromConfiguration c = .ret (some r) none →
        ∃ r', createFirewallsFromConfiguration c' = .ret (some r') none ∧
          (∀ k, GoMap.get r' k = GoMap.get r k) ∧ GoMap.len r' = GoMap.len r) :=
  ⟨fun r hr => createSourcesLoop_congr c.Sources c'.Sources (hs.map normalizeEntry) r hr,
    fun r hr =>
      createFirewallsLoop_congr c.Destinations c'.Destinations (hd.map normalizeEntry) r hr⟩

/-- C9, at an input: `validYX` visits the entries of `validXY` in the other
order, and both registries read the same. -/
theorem registries_order_independent_on_success_witness :
    validXY.Sources.Perm validYX.Sources ∧
      validXY.Destinations.Perm validYX.Destinations ∧
      createSourcesFromConfiguration validXY =
        .ret (some [("x", cloudflareSource), ("y", cloudflareSource)]) none ∧
      ∃ r', createSourcesFromConfiguration validYX = .ret (some r') none ∧
        (∀ k, GoMap.get r' k =
          GoMap.get [("x", cloudflareSource), ("y", cloudflareSource)] k) ∧
        GoMap.len r' = GoMap.len [("x", cloudflareSource), ("y", cloudflareSource)] :=
  ⟨List.Perm.swap _ _ _, List.Perm.swap _ _ _, by decide,
    (registries_order_independent_on_success validXY validYX (List.Perm.swap _ _ _)
      (List.Perm.swap _ _ _)).1 _ (by decide)⟩

/-- C9 as stated fails: `missingAB` and `missingBA` hold the same entries in two
visiting orders, and the errors of both registries differ between them. -/
theorem registries_order_dependent_counterexample :
    missingAB.Sources.Perm missingBA.Sources ∧
      missingAB.Destinations.Perm missingBA.Destinations ∧
      createSourcesFromConfiguration missingAB = .ret none (some "source a: missing type") ∧
      createSourcesFromConfiguration missingBA = .ret none (some "source b: missing type") ∧
      createSourcesFromConfiguration missingAB ≠ createSourcesFromConfiguration missingBA ∧
      createFirewallsFromConfiguration missingAB ≠ createFirewallsFromConfiguration missingBA :=
  ⟨List.Perm.swap _ _ _, List.Perm.swap _ _ _, by decide, by decide, by decide, by decide⟩

/-- C10: in a successful result of `createRulesFromConfiguration`, the names of
the keys are exactly the lower-cased destinations of the declarations, every
rule list is non-empty, a firewall that no declaration names has no entry, and
no declaration at all gives the empty map. -/
theorem createRules_keys_are_named_destinations {σ φ : Type} [DecidableEq φ]
    (sources : GoMap String σ) (firewalls : GoMap String φ) (ds : List jsonRule)
    (m : GoMap (namedFirewall φ) (List (Rule σ)))
    (h : createRulesFromConfiguration sources firewalls ds = .ret (some m) none) :
    (∀ name, name ∈ (GoMap.keys m).map (fun k => k.Name) ↔
        name ∈ ds.map (fun d => strings.ToLower d.Destination)) ∧
      (∀ key rl, GoMap.get m key = some rl → rl ≠ []) ∧
      (∀ name fw, GoMap.get firewalls name = some fw →
        name ∉ ds.map (fun d => strings.ToLower d.Destination) →
        GoMap.get m { Name := name, Firewall := fw } = none) ∧
      (ds = [] → m = []) := by
  have hv := createRulesLoop_valid_of_ok sources firewalls ds 0 [] m none h
  have hget := createRules_get sources firewalls ds m h
  have hsome : ∀ key rl, GoMap.get m key = some rl →
      ∃ d ∈ ds, keyOf firewalls d = some key ∧ rl ≠ [] := by
    intro key rl hk
    rw [hget key] at hk
    split at hk
    · simp at hk
    · simp only [Option.some.injEq] at hk
      cases hfl : ds.filter (fun d => keyOf firewalls d = some key) with
      | nil => rename_i hne; simp [hfl] at hne
      | cons x xs =>
        have hx : x ∈ ds.filter (fun d => keyOf firewalls d = some key) := by
          rw [hfl]; exact List.mem_cons_self _ _
        have hxk := (List.mem_filter.1 hx).2
        simp only [decide_eq_true_eq] at hxk
        refine ⟨x, (List.mem_filter.1 hx).1, hxk, ?_⟩
        obtain ⟨r, hr⟩ := ruleOf_isSome_of_valid sources firewalls x
          (hv x (List.mem_filter.1 hx).1)
        rw [← hk, hfl]
        simp [List.filterMap_cons, hr]
  refine ⟨?_, ?_, ?_, ?_⟩
  · intro name
    constructor
    · intro hn
      obtain ⟨key, hkey, rfl⟩ := List.mem_map.1 hn
      obtain ⟨rl, hrl⟩ := (GoMap.mem_keys_iff _ _).1 hkey
      obtain ⟨d, hd, hk, _⟩ := hsome key rl hrl
      obtain ⟨kn, kf⟩ := key
      exact List.mem_map.2 ⟨d, hd, ((keyOf_eq_some_iff firewalls d kn kf).1 hk).1⟩
    · intro hn
      obtain ⟨d, hd, rfl⟩ := List.mem_map.1 hn
      obtain ⟨fw, hfw⟩ := (GoMap.mem_keys_iff _ _).1 (hv d hd).1
      have hk : keyOf firewalls d =
          some { Name := strings.ToLower d.Destination, Firewall := fw } :=
        (keyOf_eq_some_iff firewalls d _ fw).2 ⟨rfl, hfw⟩
      refine List.mem_map.2 ⟨{ Name := strings.ToLower d.Destination, Firewall := fw }, ?_, rfl⟩
      refine (GoMap.mem_keys_iff _ _).2 ?_
      rw [hget]
      have hmem : d ∈ ds.filter (fun d' => keyOf firewalls d' =
          some { Name := strings.ToLower d.Destination, Firewall := fw }) :=
        List.mem_filter.2 ⟨hd, by simpa using hk⟩
      cases hfl : ds.filter (fun d' => keyOf firewalls d' =
          some { Name := strings.ToLower d.Destination, Firewall := fw }) with
      | nil => rw [hfl] at hmem; simp at hmem
      | cons x xs => simp
  · intro key rl hk
    obtain ⟨_, _, _, hne⟩ := hsome key rl hk
    exact hne
  · intro name fw _ hn
    cases hk : GoMap.get m { Name := name, Firewall := fw } with
    | none => rfl
    | some rl =>
      obtain ⟨d, hd, hkd, _⟩ := hsome _ rl hk
      exact absurd (List.mem_map.2 ⟨d, hd, ((keyOf_eq_some_iff firewalls d name fw).1 hkd).1⟩) hn
  · rintro rfl
    simp only [createRulesFromConfiguration, createRulesLoop, Outcome.ret.injEq,
      Option.some.injEq, and_true] at h
    exact h.symm

/-- C10, at an input: the keys compiled from `exampleRules` are named `backup`
and `hetzner`; the registered firewall `idle` has no entry. -/
theorem createRules_keys_are_named_destinations_witness :
    createRulesFromConfiguration exampleSources exampleFirewalls exampleRules =
        .ret (some exampleCompiled) none ∧
      ((∀ name, name ∈ (GoMap.keys exampleCompiled).map (fun k => k.Name) ↔
          name ∈ exampleRules.map (fun d => strings.ToLower d.Destination)) ∧
        (∀ key rl, GoMap.get exampleCompiled key = some rl → rl ≠ []) ∧
        (∀ name fw, GoMap.get exampleFirewalls name = some fw →
          name ∉ exampleRules.map (fun d => strings.ToLower d.Destination) →
          GoMap.get exampleCompiled { Name := name, Firewall := fw } = none) ∧
        (exampleRules = [] → exampleCompiled = [])) :=
  ⟨by decide,
    createRules_keys_are_named_destinations exampleSources exampleFirewalls exampleRules
      exampleCompiled (by decide)⟩

/-- C11: the document of the test compiles: both registries and the rule
compiler succeed, and the result has the one key named `hetzner`, whose list
has the one rule with action allow, a source of type cloudflare, port 8080,
nil ports, port range `[0, 0]` and nil interfaces. -/
theorem testDocument_compiles :
    createSourcesFromConfiguration testDocument.Configuration =
        .ret (some [("cloudflare", cloudflareSource)]) none ∧
      createFirewallsFromConfiguration testDocument.Configuration =
        .ret (some [("hetzner", hetznerFirewall)]) none ∧
      parseRuleSet testDocument =
        .ret (some [({ Name := "hetzner", Firewall := hetznerFirewall },
          [{ Action := ActionAllow, Source := cloudflareSource, Port := 8080, Ports := none,
             PortRange := (0, 0), Interfaces := none }])]) none ∧
      cloudflareSource.Type = SourceCloudflare := by
  decide

/-- C12, as the code has it: when the declaration at index `i` resolves its
destination and its source and has an action that lower-cases to neither allow
nor deny, `createRulesFromConfiguration` fails, and when every declaration
before `i` is valid the error is the action error of index `i` with the action
as declared. -/
theorem createRules_invalid_action {σ φ : Type} [DecidableEq φ]
    (sources : GoMap String σ) (firewalls : GoMap String φ) (ds : List jsonRule)
    (i : Nat) (d : jsonRule) (hd : ds[i]? = some d)
    (hF : strings.ToLower d.Destination ∈ GoMap.keys firewalls)
    (hS : strings.ToLower d.Source ∈ GoMap.keys sources)
    (hA : ¬ (strings.ToLower d.Action = "allow" ∨ strings.ToLower d.Action = "deny")) :
    (∃ e, createRulesFromConfiguration sources firewalls ds = .ret none (some e)) ∧
      ((∀ j d', j < i → ds[j]? = some d' → ruleValid sources firewalls d') →
        createRulesFromConfiguration sources firewalls ds =
          .ret none (some ("rule index " ++ fmtInt i ++ ": action " ++ d.Action ++ " invalid"))) := by
  have hinv : ¬ ruleValid sources firewalls d := fun hv => hA hv.2.2
  constructor
  · rcases all_or_first_failure (ruleValid sources firewalls) ds with
      hv | ⟨pre, x, post, hl, hpre, hx⟩
    · exact absurd (hv d (List.getElem?_mem hd)) hinv
    · exact ⟨_, by
        rw [createRulesFromConfiguration, hl]
        exact createRulesLoop_err sources firewalls pre x post 0 [] hpre hx⟩
  · intro hbefore
    obtain ⟨pre, post, hl, hlen, hpre⟩ := split_at_index ds i d hd
    have hvalid : ∀ x ∈ pre, ruleValid sources firewalls x := by
      intro x hx
      obtain ⟨j, hj, hjx⟩ := hpre x hx
      exact hbefore j x hj hjx
    have herr := createRulesLoop_err sources firewalls pre d post 0 [] hvalid hinv
    rw [createRulesFromConfiguration]
    rw [← hl] at herr
    rw [herr, hlen]
    simp [ruleErrorText, hF, hS]

/-- C12, at an input: in `badActionAfterValid` the declaration at index 1 has
action `Permit` after a valid declaration. -/
theorem createRules_invalid_action_witness :
    createRulesFromConfiguration exampleSources exampleFirewalls badActionAfterValid =
      .ret none (some "rule index 1: action Permit invalid") :=
  (createRules_invalid_action exampleSources exampleFirewalls badActionAfterValid 1
    (decl "Permit" "CloudFlare" "BAC\u212AUP" 2) rfl (by decide) (by decide) (by decide)).2
    (by
      intro j d' hj hjd
      have hj0 : j = 0 := by omega
      subst hj0
      simp only [badActionAfterValid, List.getElem?_cons_zero, Option.some.injEq] at hjd
      subst hjd
      unfold ruleValid
      decide)

/-- C12 as stated fails: in `badActionAfterBadDestination` the declaration at
index 1 resolves and has an invalid action, and the error is the destination
error of index 0. -/
theorem createRules_invalid_action_counterexample :
    badActionAfterBadDestination[1]? = some (decl "Permit" "cloudflare" "hetzner" 2) ∧
      strings.ToLower "hetzner" ∈ GoMap.keys exampleFirewalls ∧
      strings.ToLower "cloudflare" ∈ GoMap.keys exampleSources ∧
      ¬ (strings.ToLower "Permit" = "allow" ∨ strings.ToLower "Permit" = "deny") ∧
      createRulesFromConfiguration exampleSources exampleFirewalls
          badActionAfterBadDestination =
        .ret none (some "rule index 0: destination not configured") ∧
      createRulesFromConfiguration exampleSources exampleFirewalls
          badActionAfterBadDestination ≠
        .ret none (some "rule index 1: action Permit invalid") := by
  decide

/-- C13: in a successful result of `createRulesFromConfiguration`, the rules of
the list under a key have as their sources, one after the other, the values
that the source registry holds under the lower-cased source names of the
declarations aimed at the name of the key, each rule that of its own
declaration; and when the lower-cased source of some declaration is no key of
the source registry no rule set is returned. -/
theorem createRules_no_dangling_source {σ φ : Type} [DecidableEq φ]
    (sources : GoMap String σ) (firewalls : GoMap String φ) (ds : List jsonRule) :
    (∀ m, createRulesFromConfiguration sources firewalls ds = .ret (some m) none →
        ∀ key rl, GoMap.get m key = some rl →
          rl.map (fun r => some r.Source) =
            (ds.filter fun d => strings.ToLower d.Destination = key.Name).map
              (fun d => GoMap.get sources (strings.ToLower d.Source))) ∧
      ((∃ d ∈ ds, strings.ToLower d.Source ∉ GoMap.keys sources) →
        ∀ m e, createRulesFromConfiguration sources firewalls ds ≠ .ret (some m) e) := by
  constructor
  · intro m h key rl hk
    have hv := createRulesLoop_valid_of_ok sources firewalls ds 0 [] m none h
    obtain ⟨_, hrl⟩ := createRules_entry sources firewalls ds m h key rl hk
    have hmap := congrArg (List.map (Option.map fun r : Rule σ => r.Source)) hrl
    simp only [List.map_map] at hmap
    have hl : (Option.map (fun r : Rule σ => r.Source) ∘ some) =
        fun r : Rule σ => some r.Source := by
      funext r; rfl
    rw [hl] at hmap
    rw [hmap]
    apply List.map_congr_left
    intro d hd
    exact ruleOf_source sources firewalls d (hv d (List.mem_of_mem_filter hd))
  · rintro ⟨d, hd, hmiss⟩ m e h
    exact hmiss (createRulesLoop_valid_of_ok sources firewalls ds 0 [] m e h d hd).2.1

/-- C13, at an input: the three rules compiled from `exampleRules` for `hetzner`
have the source registered under `cloudflare`, the lower-cased source of each of
the declarations at indices 2, 5 and 7; and `invalidRules`, which names the
unknown source `nowhere`, gives no rule set. -/
theorem createRules_no_dangling_source_witness :
    [exampleRule "allow" 3, exampleRule "deny" 6, exampleRule "allow" 8].map
          (fun r => some r.Source) =
        (exampleRules.filter fun d => strings.ToLower d.Destination = "hetzner").map
          (fun d => GoMap.get exampleSources (strings.ToLower d.Source)) ∧
      ∀ m e, createRulesFromConfiguration exampleSources exampleFirewalls invalidRules ≠
        .ret (some m) e :=
  ⟨(createRules_no_dangling_source exampleSources exampleFirewalls exampleRules).1
      exampleCompiled (by decide) { Name := "hetzner", Firewall := hetznerFirewall } _
      (by decide),
    (createRules_no_dangling_source exampleSources exampleFirewalls invalidRules).2
      ⟨decl "allow" "nowhere" "Unknown" 2, by decide, by decide⟩⟩

/-- C14, on the code: for the entry `Edge` of the unknown type `Unknown-Kind`
the source registry returns the unknown-type error that names the type value,
and the firewall registry one that names the entry and does not contain the
type value. -/
theorem firewall_unknown_type_error_names_entry :
    createSourcesFromConfiguration unknownKindEntry =
        .ret none (some "source Unknown-Kind: unknown type") ∧
      createFirewallsFromConfiguration unknownKindEntry =
        .ret none (some "firewall edge: unknown type") ∧
      createFirewallsFromConfiguration unknownKindEntry ≠
        .ret none (some "firewall Unknown-Kind: unknown type") ∧
      strings.Contains "firewall edge: unknown type" "Unknown-Kind" = false ∧
      strings.Contains "source Unknown-Kind: unknown type" "Unknown-Kind" = true := by
  decide

/-- C15, on the code: for the source entry `Edge` of type `unknown` the error of
the source registry does not contain the lower-cased name of the entry, while
the error of the firewall registry for the same entry does. -/
theorem source_unknown_type_error_omits_entry_name :
    createSourcesFromConfiguration unknownTypeEntry =
        .ret none (some "source unknown: unknown type") ∧
      strings.Contains "source unknown: unknown type" (strings.ToLower "Edge") = false ∧
      createFirewallsFromConfiguration unknownTypeEntry =
        .ret none (some "firewall edge: unknown type") ∧
      strings.Contains "firewall edge: unknown type" (strings.ToLower "Edge") = true := by
  decide

/-- C16: in a successful result of `createRulesFromConfiguration` two keys with
the same name are the same key, and no name occurs twice among the keys, so a
name has at most one rule list. -/
theorem createRules_keys_unique_by_name {σ φ : Type} [DecidableEq φ]
    (sources : GoMap String σ) (firewalls : GoMap String φ) (ds : List jsonRule)
    (m : GoMap (namedFirewall φ) (List (Rule σ)))
    (h : createRulesFromConfiguration sources firewalls ds = .ret (some m) none) :
    (∀ k₁ k₂, k₁ ∈ GoMap.keys m → k₂ ∈ GoMap.keys m → k₁.Name = k₂.Name → k₁ = k₂) ∧
      ((GoMap.keys m).map (fun k => k.Name)).Nodup := by
  have hfw : ∀ k, k ∈ GoMap.keys m → GoMap.get firewalls k.Name = some k.Firewall := by
    intro k hk
    obtain ⟨rl, hrl⟩ := (GoMap.mem_keys_iff _ _).1 hk
    obtain ⟨_, d, _, hkd⟩ := createRules_key_of_decl sources firewalls ds m h k rl hrl
    obtain ⟨kn, kf⟩ := k
    exact ((keyOf_eq_some_iff firewalls d kn kf).1 hkd).2
  have hinj : ∀ k₁ k₂, k₁ ∈ GoMap.keys m → k₂ ∈ GoMap.keys m → k₁.Name = k₂.Name →
      k₁ = k₂ := by
    intro k₁ k₂ h₁ h₂ hname
    have e₁ := hfw k₁ h₁
    have e₂ := hfw k₂ h₂
    rw [hname, e₂] at e₁
    obtain ⟨n₁, f₁⟩ := k₁
    obtain ⟨n₂, f₂⟩ := k₂
    simp only [Option.some.injEq] at e₁
    simp only at hname
    rw [hname, e₁]
  refine ⟨hinj, ?_⟩
  have hnodup : (GoMap.keys m).Nodup :=
    createRulesLoop_nodup_keys sources firewalls ds 0 [] m (by simp [GoMap.keys]) h
  exact List.Nodup.map_on (fun x hx y hy hxy => hinj x y hx hy hxy) hnodup

/-- C16, at an input: the keys compiled from `exampleRules` have the two
distinct names `backup` and `hetzner`. -/
theorem createRules_keys_unique_by_name_witness :
    createRulesFromConfiguration exampleSources exampleFirewalls exampleRules =
        .ret (some exampleCompiled) none ∧
      (GoMap.keys exampleCompiled).map (fun k => k.Name) = ["backup", "hetzner"] ∧
      (∀ k₁ k₂, k₁ ∈ GoMap.keys exampleCompiled → k₂ ∈ GoMap.keys exampleCompiled →
        k₁.Name = k₂.Name → k₁ = k₂) ∧
      ((GoMap.keys exampleCompiled).map (fun k => k.Name)).Nodup :=
  ⟨by decide, by decide,
    createRules_keys_unique_by_name exampleSources exampleFirewalls exampleRules
      exampleCompiled (by decide)⟩

/-- C17: in the pipeline of `ParseRulesFromJsonFile`, an error of the source
registry is the result whatever the destinations and the rules are; when the
source registry succeeds, an error of the firewall registry is the result
whatever the rules are; when both registries succeed the result is that of the
rule compiler; and a rule set is returned only when both registries
succeed. -/
theorem pipeline_stage_precedence (srcs dests : List (String × PropertyBag))
    (rules : List jsonRule) :
    (∀ dests₀ v e,
        createSourcesFromConfiguration { Sources := srcs, Destinations := dests₀ } =
          .ret v (some e) →
        parseRuleSet { Configuration := { Sources := srcs, Destinations := dests },
                       Rules := rules } = .ret none (some e)) ∧
      (∀ srcs₀ S v e,
        createSourcesFromConfiguration { Sources := srcs, Destinations := dests } =
          .ret (some S) none →
        createFirewallsFromConfiguration { Sources := srcs₀, Destinations := dests } =
          .ret v (some e) →
        parseRuleSet { Configuration := { Sources := srcs, Destinations := dests },
                       Rules := rules } = .ret none (some e)) ∧
      (∀ S F,
        createSourcesFromConfiguration { Sources := srcs, Destinations := dests } =
          .ret (some S) none →
        createFirewallsFromConfiguration { Sources := srcs, Destinations := dests } =
          .ret (some F) none →
        parseRuleSet { Configuration := { Sources := srcs, Destinations := dests },
                       Rules := rules } = createRulesFromConfiguration S F rules) ∧
      (∀ m,
        parseRuleSet { Configuration := { Sources := srcs, Destinations := dests },
                       Rules := rules } = .ret (some m) none →
        ∃ S F,
          createSourcesFromConfiguration { Sources := srcs, Destinations := dests } =
            .ret (some S) none ∧
          createFirewallsFromConfiguration { Sources := srcs, Destinations := dests } =
            .ret (some F) none ∧
          createRulesFromConfiguration S F rules = .ret (some m) none) := by
  refine ⟨?_, ?_, ?_, ?_⟩
  · intro dests₀ v e h
    have h' : createSourcesFromConfiguration { Sources := srcs, Destinations := dests } =
        .ret v (some e) := h
    simp [parseRuleSet, h']
  · intro srcs₀ S v e hs hf
    have hf' : createFirewallsFromConfiguration { Sources := srcs, Destinations := dests } =
        .ret v (some e) := hf
    simp [parseRuleSet, hs, hf']
  · intro S F hs hf
    exact parseRuleSet_of_registries _ S F hs hf
  · intro m h
    exact parseRuleSet_ok _ m h

/-- C17, at an input: in `allInvalidDocument` a source entry, a destination
entry and a rule are invalid, and the error of the source registry is the
result; in `invalidDestinationsDocument` the sources are valid and the error of
the firewall registry is the result. -/
theorem pipeline_stage_precedence_witness :
    createFirewallsFromConfiguration allInvalidDocument.Configuration =
        .ret none (some "firewall a: unknown type") ∧
      parseRuleSet allInvalidDocument = .ret none (some "source unknown: unknown type") ∧
      parseRuleSet invalidDestinationsDocument =
        .ret none (some "firewall a: unknown type") :=
  ⟨by decide,
    (pipeline_stage_precedence [("a", typedBag "unknown"), ("b", [])]
      [("a", typedBag "unknown"), ("b", [])] invalidRules).1 [] none
      "source unknown: unknown type" (by decide),
    (pipeline_stage_precedence [("cloudflare", typedBag "cloudflare")]
      [("a", typedBag "unknown"), ("b", [])] invalidRules).2.1 []
      [("cloudflare", cloudflareSource)] none "firewall a: unknown type"
      (by decide) (by decide)⟩

/-- C18: an entry whose `type` is a string that lower-cases to `cloudflare`
(`hetzner`) is treated by `createSourcesFromConfiguration`
(`createFirewallsFromConfiguration`) exactly like the same entry with type
`cloudflare` (`hetzner`), wherever it stands among the entries; alone, it gives
the registry with the one source of type cloudflare (firewall of type
hetzner). -/
theorem type_tag_dispatch_case_insensitive (name t : String) (bag bag' : PropertyBag)
    (pre post other : List (String × PropertyBag))
    (hb : GoMap.get bag "type" = some (.string t)) :
    (strings.ToLower t = SourceCloudflare →
        GoMap.get bag' "type" = some (.string SourceCloudflare) →
        createSourcesFromConfiguration
            { Sources := pre ++ (name, bag) :: post, Destinations := other } =
          createSourcesFromConfiguration
            { Sources := pre ++ (name, bag') :: post, Destinations := other }) ∧
      (strings.ToLower t = SourceCloudflare →
        createSourcesFromConfiguration { Sources := [(name, bag)], Destinations := other } =
            .ret (some [(strings.ToLower name, cloudflareSource)]) none ∧
          cloudflareSource.Type = SourceCloudflare) ∧
      (strings.ToLower t = FirewallHetzner →
        GoMap.get bag' "type" = some (.string FirewallHetzner) →
        createFirewallsFromConfiguration
            { Sources := other, Destinations := pre ++ (name, bag) :: post } =
          createFirewallsFromConfiguration
            { Sources := other, Destinations := pre ++ (name, bag') :: post }) ∧
      (strings.ToLower t = FirewallHetzner →
        createFirewallsFromConfiguration { Sources := other, Destinations := [(name, bag)] } =
            .ret (some [(strings.ToLower name, hetznerFirewall)]) none ∧
          hetznerFirewall.Type = FirewallHetzner) := by
  refine ⟨?_, ?_, ?_, ?_⟩
  · intro hl hb'
    have h₁ : hasTypeTag SourceCloudflare bag := ⟨t, hb, hl⟩
    have h₂ : hasTypeTag SourceCloudflare bag' := ⟨SourceCloudflare, hb', by decide⟩
    apply createSourcesLoop_append_congr
    intro acc
    rw [createSourcesLoop_cons_of_tag name bag post acc h₁,
      createSourcesLoop_cons_of_tag name bag' post acc h₂]
  · intro hl
    refine ⟨?_, rfl⟩
    simp [createSourcesFromConfiguration, createSourcesLoop, hb, hl, cloudflare.New, GoMap.set,
      cloudflareSource]
  · intro hl hb'
    have h₁ : hasTypeTag FirewallHetzner bag := ⟨t, hb, hl⟩
    have h₂ : hasTypeTag FirewallHetzner bag' := ⟨FirewallHetzner, hb', by decide⟩
    apply createFirewallsLoop_append_congr
    intro acc
    rw [createFirewallsLoop_cons_of_tag name bag post acc h₁,
      createFirewallsLoop_cons_of_tag name bag' post acc h₂]
  · intro hl
    refine ⟨?_, rfl⟩
    simp [createFirewallsFromConfiguration, createFirewallsLoop, hb, hl, hetzner.New,
      GoMap.set, hetznerFirewall]

/-- C18, at an input: a source entry of type `CloudFlare` gives the registry
that the same entry of type `cloudflare` gives, with a source of type
cloudflare. -/
theorem type_tag_dispatch_case_insensitive_witness :
    GoMap.get (typedBag "CloudFlare") "type" = some (.string "CloudFlare") ∧
      createSourcesFromConfiguration
          { Sources := [("cdn", typedBag "CloudFlare")], Destinations := [] } =
        createSourcesFromConfiguration
          { Sources := [("cdn", typedBag "cloudflare")], Destinations := [] } ∧
      createSourcesFromConfiguration
          { Sources := [("cdn", typedBag "CloudFlare")], Destinations := [] } =
        .ret (some [(strings.ToLower "cdn", cloudflareSource)]) none ∧
      cloudflareSource.Type = SourceCloudflare :=
  ⟨rfl,
    (type_tag_dispatch_case_insensitive "cdn" "CloudFlare" (typedBag "CloudFlare")
      (typedBag "cloudflare") [] [] [] rfl).1 (by decide) rfl,
    (type_tag_dispatch_case_insensitive "cdn" "CloudFlare" (typedBag "CloudFlare")
      (typedBag "cloudflare") [] [] [] rfl).2.1 (by decide)⟩

end Unfirewall
